import Mathlib

/-!
Pod source of external-dns: endpoint derivation (`source/pod.go`)

A shallow embedding of `podSource.Endpoints` and `addToEndpointMap`.

* Go's `map[endpointKey][]string` is an association list with at most one
  entry per key; a new key is stored behind the existing ones.  Go leaves the
  order of `range` over a map unspecified, so every statement about the
  returned slice is made up to reordering of the endpoints (or is an equality
  between two runs of the same model).
* `Endpoints` returns `([]*Endpoint, error)`; the embedding returns
  `Except Failure (List Endpoint)`, where `Failure.listError e` is the returned
  pair `(nil, e)` and `Failure.nilDereference` is the run-time fault of reading
  a field through a nil `*Node`.
* `pod.go` uses declarations that live in other files of the repository: the
  four annotation keys, `splitHostnameAnnotation` and `suitableType`.  They are
  the fields of `Deps`, a parameter of the embedding.
-/

namespace PodSource

/-! ## Data model -/

/-- The Go type `error` of a failed pod listing, kept as its message. -/
abbrev Error := String

/-- How a call of `Endpoints` can end without an endpoint list. -/
inductive Failure where
  /-- The call returned `(nil, err)`. -/
  | listError (err : Error)
  /-- The call read `node.Status.Addresses` through a nil `*Node`. -/
  | nilDereference
deriving DecidableEq, Repr

deriving instance DecidableEq for Except

/-- The struct `endpointKey`: the key of the aggregation map. -/
structure endpointKey where
  dnsName : String
  recordType : String
deriving DecidableEq, Repr

/-- The value `corev1.NodeExternalIP`. -/
def NodeExternalIP : String := "ExternalIP"

/-- The value `corev1.NodeInternalIP`. -/
def NodeInternalIP : String := "InternalIP"

/-- Modelled from the spec: the constant `endpoint.RecordTypeA`, declared in the
endpoint package; the IPv4 record type. -/
def RecordTypeA : String := "A"

/-- Modelled from the spec: the constant `endpoint.RecordTypeAAAA`, declared in the
endpoint package; the IPv6 record type. -/
def RecordTypeAAAA : String := "AAAA"

/-- The struct `corev1.NodeAddress`: an advertised address and its kind. -/
structure NodeAddress where
  type : String
  Address : String
deriving DecidableEq, Repr

/-- The fields of `corev1.Node` that `Endpoints` reads. -/
structure Node where
  Name : String
  Addresses : List NodeAddress
deriving DecidableEq, Repr

/-- The fields of `corev1.Pod` that `Endpoints` reads: `Name`, `Annotations`,
`Spec.HostNetwork`, `Spec.NodeName` and `Status.PodIP`.  The annotation map is an
association list read with `List.lookup`. -/
structure Pod where
  Name : String
  Annotations : List (String × String)
  HostNetwork : Bool
  NodeName : String
  PodIP : String
deriving DecidableEq, Repr

/-- Modelled from the spec: the type `endpoint.Endpoint`, declared in the endpoint
package; a DNS name, a record type and a list of target strings. -/
structure Endpoint where
  DNSName : String
  RecordType : String
  Targets : List String
deriving DecidableEq, Repr

/-- Modelled from the spec: the constructor `endpoint.NewEndpoint`, declared in the
endpoint package; it builds the record from its three parts. -/
def NewEndpoint (dnsName recordType : String) (targets : List String) : Endpoint :=
  { DNSName := dnsName, RecordType := recordType, Targets := targets }

/-- The declarations of the package that `pod.go` uses and does not contain. -/
structure Deps where
  internalHostnameAnnotationKey : String
  hostnameAnnotationKey : String
  kopsDNSControllerInternalHostnameAnnotationKey : String
  kopsDNSControllerHostnameAnnotationKey : String
  splitHostnameAnnotation : String → List String
  suitableType : String → String

/-- The struct `podSource`.  `podInformer` is the pod lister
(`Lister().Pods(namespace).List(labels.Everything())`) and `nodeInformer` the node
lister (`Lister().Get(name)`, `none` for the nil pointer it returns with its
not-found error). -/
structure podSource where
  «namespace» : String
  podInformer : String → Except Error (List Pod)
  nodeInformer : String → Option Node
  compatibility : String

/-! ## The aggregation map -/

/-- The Go map `map[endpointKey][]string`. -/
abbrev EndpointMap := List (endpointKey × List String)

/-- The two-valued read `v, ok := m[key]`. -/
def EndpointMap.get? (m : EndpointMap) (key : endpointKey) : Option (List String) :=
  match m with
  | [] => none
  | (k, v) :: rest => if k = key then some v else EndpointMap.get? rest key

/-- The read `m[key]`: the zero value (the nil slice) for an absent key. -/
def EndpointMap.index (m : EndpointMap) (key : endpointKey) : List String :=
  (m.get? key).getD []

/-- The assignment `m[key] = v`. -/
def EndpointMap.store (m : EndpointMap) (key : endpointKey) (v : List String) :
    EndpointMap :=
  match m with
  | [] => [(key, v)]
  | (k, w) :: rest =>
    if k = key then (k, v) :: rest else (k, w) :: EndpointMap.store rest key v

/-- The function `addToEndpointMap` (pod.go, lines 143-152). -/
def addToEndpointMap (endpointMap : EndpointMap) (domain recordType address : String) :
    EndpointMap :=
  let key : endpointKey := { dnsName := domain, recordType := recordType }
  let endpointMap :=
    if (endpointMap.get? key).isNone then endpointMap.store key [] else endpointMap
  endpointMap.store key (endpointMap.index key ++ [address])

/-! ## `podSource.Endpoints` -/

/-- Lines 94-96 and 116-118: one target, the pod's own IP, for every domain. -/
def addPodIP (d : Deps) (pod : Pod) (endpointMap : EndpointMap)
    (domainList : List String) : EndpointMap :=
  domainList.foldl
    (fun m domain => addToEndpointMap m domain (d.suitableType pod.PodIP) pod.PodIP)
    endpointMap

/-- Lines 104-108 and 126-130: the body of the loop over the node's addresses. -/
def addNodeAddress (d : Deps) (domain : String) (endpointMap : EndpointMap)
    (address : NodeAddress) : EndpointMap :=
  let recordType := d.suitableType address.Address
  if address.type = NodeExternalIP ∨
      (address.type = NodeInternalIP ∧ recordType = RecordTypeAAAA) then
    addToEndpointMap endpointMap domain recordType address.Address
  else endpointMap

/-- Lines 102-109 and 124-131: the node is fetched, the lookup's error is dropped,
and the addresses are read through the pointer. -/
def addNodeAddresses (d : Deps) (ps : podSource) (pod : Pod) (endpointMap : EndpointMap)
    (domain : String) : Except Failure EndpointMap :=
  match ps.nodeInformer pod.NodeName with
  | none => .error .nilDereference
  | some node => .ok (node.Addresses.foldl (addNodeAddress d domain) endpointMap)

/-- Lines 92-97 (and 114-119 with the kops key): the block of an annotation that
resolves to the pod's IP. -/
def internalHostnameBlock (d : Deps) (key : String) (pod : Pod)
    (endpointMap : EndpointMap) : EndpointMap :=
  match pod.Annotations.lookup key with
  | some domainAnnotation =>
    addPodIP d pod endpointMap (d.splitHostnameAnnotation domainAnnotation)
  | none => endpointMap

/-- Lines 99-111 (and 121-133 with the kops key): the block of an annotation that
resolves to the addresses of the pod's node. -/
def hostnameBlock (d : Deps) (ps : podSource) (key : String) (pod : Pod)
    (endpointMap : EndpointMap) : Except Failure EndpointMap :=
  match pod.Annotations.lookup key with
  | some domainAnnotation =>
    (d.splitHostnameAnnotation domainAnnotation).foldlM (addNodeAddresses d ps pod)
      endpointMap
  | none => .ok endpointMap

/-- Lines 87-134: the body of the loop over the pods. -/
def podStep (d : Deps) (ps : podSource) (endpointMap : EndpointMap) (pod : Pod) :
    Except Failure EndpointMap :=
  if !pod.HostNetwork then .ok endpointMap
  else do
    let endpointMap := internalHostnameBlock d d.internalHostnameAnnotationKey pod endpointMap
    let endpointMap ← hostnameBlock d ps d.hostnameAnnotationKey pod endpointMap
    if ps.compatibility = "kops-dns-controller" then
      let endpointMap :=
        internalHostnameBlock d d.kopsDNSControllerInternalHostnameAnnotationKey pod
          endpointMap
      hostnameBlock d ps d.kopsDNSControllerHostnameAnnotationKey pod endpointMap
    else pure endpointMap

/-- Lines 85-135: the map built from the listed pods. -/
def buildEndpointMap (d : Deps) (ps : podSource) (pods : List Pod) :
    Except Failure EndpointMap :=
  pods.foldlM (podStep d ps) []

/-- Lines 136-139: one endpoint per entry of the map. -/
def toEndpoints (endpointMap : EndpointMap) : List Endpoint :=
  endpointMap.map fun entry => NewEndpoint entry.1.dnsName entry.1.recordType entry.2

/-- The method `podSource.Endpoints` (pod.go, lines 79-141). -/
def Endpoints (d : Deps) (ps : podSource) : Except Failure (List Endpoint) :=
  match ps.podInformer ps.«namespace» with
  | .error err => .error (.listError err)
  | .ok pods =>
    match buildEndpointMap d ps pods with
    | .error f => .error f
    | .ok endpointMap => .ok (toEndpoints endpointMap)

/-! ## The declarations outside `pod.go`, after the specification -/

/-- Modelled from the spec: the constant `internalHostnameAnnotationKey`, declared
outside pod.go; the key the annotation vocabulary calls internal-hostname. -/
def internalHostnameAnnotationKey : String := "internal-hostname"

/-- Modelled from the spec: the constant `hostnameAnnotationKey`, declared outside
pod.go; the key the annotation vocabulary calls hostname. -/
def hostnameAnnotationKey : String := "hostname"

/-- Modelled from the spec: the constant
`kopsDNSControllerInternalHostnameAnnotationKey`, declared outside pod.go; the key the
annotation vocabulary calls kops internal-hostname. -/
def kopsDNSControllerInternalHostnameAnnotationKey : String := "kops internal-hostname"

/-- Modelled from the spec: the constant `kopsDNSControllerHostnameAnnotationKey`,
declared outside pod.go; the key the annotation vocabulary calls kops hostname. -/
def kopsDNSControllerHostnameAnnotationKey : String := "kops hostname"

/-- The pieces of a character list between the occurrences of `sep`. -/
def splitOnChar (sep : Char) : List Char → List (List Char)
  | [] => [[]]
  | c :: cs =>
    if c = sep then [] :: splitOnChar sep cs
    else
      match splitOnChar sep cs with
      | [] => [[c]]
      | seg :: rest => (c :: seg) :: rest

/-- A whitespace character: a code point with the Unicode property White_Space (tab to
carriage return, space, next line, no-break space and the space separators). -/
def isSpace (c : Char) : Bool :=
  let n := c.toNat
  (decide (9 ≤ n) && decide (n ≤ 13)) || n == 32 || n == 133 || n == 160 || n == 5760 ||
    (decide (8192 ≤ n) && decide (n ≤ 8202)) || n == 8232 || n == 8233 || n == 8239 ||
    n == 8287 || n == 12288

/-- A character list without its leading and trailing whitespace. -/
def trimSpace (cs : List Char) : List Char :=
  ((cs.dropWhile isSpace).reverse.dropWhile isSpace).reverse

/-- A segment that is empty or holds whitespace only. -/
def blankSegment (seg : List Char) : Bool :=
  seg.all isSpace

/-- The comma-separated segments of an annotation value that are not blank, in
order. -/
def solidSegments (value : String) : List (List Char) :=
  (splitOnChar ',' value.data).filter fun seg => !blankSegment seg

/-- Modelled from the spec: the helper `splitHostnameAnnotation`, declared outside
pod.go; the value is cut at its commas, every segment is trimmed of surrounding
whitespace, and empty segments are discarded. -/
def splitHostnameAnnotation (value : String) : List String :=
  (((splitOnChar ',' value.data).map trimSpace).filter (fun seg => !seg.isEmpty)).map
    String.mk

/-- A hexadecimal digit. -/
def isHexDigit (c : Char) : Bool :=
  c.isDigit || ('a'.toNat ≤ c.toNat && c.toNat ≤ 'f'.toNat) ||
    ('A'.toNat ≤ c.toNat && c.toNat ≤ 'F'.toNat)

/-- One 16-bit group of an IPv6 literal: one to four hexadecimal digits. -/
def isHexGroup (g : List Char) : Bool :=
  decide (1 ≤ g.length) && decide (g.length ≤ 4) && g.all isHexDigit

/-- The number a list of decimal digits denotes. -/
def decimalValue (g : List Char) : Nat :=
  g.foldl (fun n c => 10 * n + (c.toNat - '0'.toNat)) 0

/-- One part of a dotted quad: a decimal number up to 255 without a leading zero. -/
def isDecimalByte (g : List Char) : Bool :=
  g.all Char.isDigit && decide (1 ≤ g.length) && decide (g.length ≤ 3) &&
    (decide (g.length = 1) || g.head? != some '0') && decide (decimalValue g ≤ 255)

/-- A dotted quad: four decimal bytes between dots. -/
def isIPv4Text (cs : List Char) : Bool :=
  let parts := splitOnChar '.' cs
  decide (parts.length = 4) && parts.all isDecimalByte

/-- The number of 16-bit groups a colon-separated run denotes, when every piece is a
hexadecimal group, or, for the last piece and with `allowV4`, a dotted quad. -/
def groupCount (allowV4 : Bool) : List (List Char) → Option Nat
  | [] => some 0
  | [g] =>
    if isHexGroup g then some 1
    else if allowV4 && isIPv4Text g then some 2
    else none
  | g :: rest =>
    if isHexGroup g then (groupCount allowV4 rest).map (fun n => n + 1) else none

/-- The text before and after the first `::`, when there is one. -/
def splitAtDoubleColon : List Char → Option (List Char × List Char)
  | [] => none
  | [_] => none
  | c :: c' :: rest =>
    if c = ':' ∧ c' = ':' then some ([], rest)
    else (splitAtDoubleColon (c' :: rest)).map (fun ht => (c :: ht.1, ht.2))

/-- The groups of one side of a `::`; an empty side has none. -/
def sideGroups (allowV4 : Bool) (cs : List Char) : Option Nat :=
  if cs.isEmpty then some 0 else groupCount allowV4 (splitOnChar ':' cs)

/-- An IPv6 literal in its text form: eight groups between colons, or fewer with one
`::` standing for the missing zero groups; the last two groups may be a dotted quad. -/
def isIPv6Text (cs : List Char) : Bool :=
  match splitAtDoubleColon cs with
  | none => groupCount true (splitOnChar ':' cs) == some 8
  | some (h, t) =>
    match sideGroups false h, sideGroups true t with
    | some a, some b => decide (a + b ≤ 7)
    | _, _ => false

/-- Modelled from the spec: the helper `suitableType`, declared outside pod.go; an
address that parses as an IPv6 literal has the IPv6 record type and every other
string, IP literal or not, the IPv4 record type. -/
def suitableType (target : String) : String :=
  if isIPv6Text target.data then RecordTypeAAAA else RecordTypeA

/-- The declarations above as the parameter of the embedding. -/
def specDeps : Deps :=
  { internalHostnameAnnotationKey := internalHostnameAnnotationKey
    hostnameAnnotationKey := hostnameAnnotationKey
    kopsDNSControllerInternalHostnameAnnotationKey :=
      kopsDNSControllerInternalHostnameAnnotationKey
    kopsDNSControllerHostnameAnnotationKey := kopsDNSControllerHostnameAnnotationKey
    splitHostnameAnnotation := splitHostnameAnnotation
    suitableType := suitableType }

/-! ## Observers and the calls of `addToEndpointMap` as data -/

/-- The same source reading the given pod list. -/
def podSource.withPods (ps : podSource) (pods : List Pod) : podSource :=
  { ps with podInformer := fun _ => .ok pods }

/-- The keys of the map, in the order of the entries. -/
def EndpointMap.keys (m : EndpointMap) : List endpointKey :=
  m.map Prod.fst

/-- The (DNS name, record type) pair of an endpoint. -/
def Endpoint.key (e : Endpoint) : String × String :=
  (e.DNSName, e.RecordType)

/-- The target list a result carries for a DNS name and record type; the empty list
when the result has no such endpoint. -/
def targetsFor (out : List Endpoint) (dnsName recordType : String) : List String :=
  match out.find? (fun e => decide (e.DNSName = dnsName ∧ e.RecordType = recordType)) with
  | some e => e.Targets
  | none => []

/-- One call `addToEndpointMap(endpointMap, domain, recordType, address)`. -/
structure Emission where
  domain : String
  recordType : String
  address : String
deriving DecidableEq, Repr

/-- The key an emission is filed under. -/
def Emission.key (e : Emission) : endpointKey :=
  { dnsName := e.domain, recordType := e.recordType }

/-- The calls of `addToEndpointMap` replayed on a map, first to last. -/
def applyEmissions (m : EndpointMap) (es : List Emission) : EndpointMap :=
  es.foldl (fun m e => addToEndpointMap m e.domain e.recordType e.address) m

/-- The test of line 106 (and 128) on one node address. -/
def eligible (d : Deps) (address : NodeAddress) : Bool :=
  decide (address.type = NodeExternalIP ∨
    (address.type = NodeInternalIP ∧ d.suitableType address.Address = RecordTypeAAAA))

/-- The calls made for one domain and the addresses of a node. -/
def nodeEmissions (d : Deps) (domain : String) (addresses : List NodeAddress) :
    List Emission :=
  (addresses.filter (eligible d)).map fun a =>
    { domain := domain, recordType := d.suitableType a.Address, address := a.Address }

/-- The calls made for a domain list resolved to the pod's IP. -/
def podIPEmissions (d : Deps) (pod : Pod) (domainList : List String) : List Emission :=
  domainList.map fun domain =>
    { domain := domain, recordType := d.suitableType pod.PodIP, address := pod.PodIP }

/-- The calls of a loop whose body may fault: the calls of every round, in order, or
the first fault. -/
def collect {α : Type} (g : α → Except Failure (List Emission)) :
    List α → Except Failure (List Emission)
  | [] => .ok []
  | x :: xs =>
    match g x with
    | .error f => .error f
    | .ok es =>
      match collect g xs with
      | .error f => .error f
      | .ok es' => .ok (es ++ es')

/-- The calls made for one domain of a hostname annotation. -/
def domainEmissions (d : Deps) (ps : podSource) (pod : Pod) (domain : String) :
    Except Failure (List Emission) :=
  match ps.nodeInformer pod.NodeName with
  | none => .error .nilDereference
  | some node => .ok (nodeEmissions d domain node.Addresses)

/-- The calls made by the block of an annotation that resolves to the pod's IP. -/
def internalHostnameEmissions (d : Deps) (key : String) (pod : Pod) : List Emission :=
  match pod.Annotations.lookup key with
  | some domainAnnotation => podIPEmissions d pod (d.splitHostnameAnnotation domainAnnotation)
  | none => []

/-- The calls made by the block of an annotation that resolves to the node. -/
def hostnameEmissions (d : Deps) (ps : podSource) (key : String) (pod : Pod) :
    Except Failure (List Emission) :=
  match pod.Annotations.lookup key with
  | some domainAnnotation =>
    collect (domainEmissions d ps pod) (d.splitHostnameAnnotation domainAnnotation)
  | none => .ok []

/-- The calls made for one pod. -/
def podEmissions (d : Deps) (ps : podSource) (pod : Pod) : Except Failure (List Emission) :=
  if !pod.HostNetwork then .ok []
  else
    match hostnameEmissions d ps d.hostnameAnnotationKey pod with
    | .error f => .error f
    | .ok e2 =>
      let e1 := internalHostnameEmissions d d.internalHostnameAnnotationKey pod
      if ps.compatibility = "kops-dns-controller" then
        match hostnameEmissions d ps d.kopsDNSControllerHostnameAnnotationKey pod with
        | .error f => .error f
        | .ok e4 =>
          .ok (e1 ++ e2 ++
            internalHostnameEmissions d d.kopsDNSControllerInternalHostnameAnnotationKey pod
            ++ e4)
      else .ok (e1 ++ e2)

/-! ## Scenario data -/

/-- A node with one external IPv4 address and one internal IPv6 address. -/
def edgeNode : Node :=
  { Name := "node-1"
    Addresses :=
      [{ type := NodeExternalIP, Address := "203.0.113.5" },
       { type := NodeInternalIP, Address := "2001:db8::5" }] }

/-- A source in standard mode that knows `edgeNode` and lists no pod. -/
def edgeSource : podSource :=
  { «namespace» := "default"
    podInformer := fun _ => .ok []
    nodeInformer := fun name => if name = "node-1" then some edgeNode else none
    compatibility := "" }

/-- The same source in kops compatibility mode. -/
def kopsSource : podSource :=
  { edgeSource with compatibility := "kops-dns-controller" }

/-- A pod outside the host network that carries all four annotations. -/
def overlayPod : Pod :=
  { Name := "overlay"
    Annotations :=
      [(internalHostnameAnnotationKey, "in.example.com"),
       (hostnameAnnotationKey, "out.example.com"),
       (kopsDNSControllerInternalHostnameAnnotationKey, "kin.example.com"),
       (kopsDNSControllerHostnameAnnotationKey, "kout.example.com")]
    HostNetwork := false
    NodeName := "node-1"
    PodIP := "10.0.0.5" }

/-- A host-network pod on `edgeNode` whose only annotation is the hostname. -/
def svcPod : Pod :=
  { Name := "svc"
    Annotations := [(hostnameAnnotationKey, "svc.example.com")]
    HostNetwork := true
    NodeName := "node-1"
    PodIP := "192.0.2.10" }

/-- The addresses of a node, in node order, that pass the test of line 106 and are
classified to the record type `recordType`. -/
def eligibleTargets (d : Deps) (recordType : String) (addresses : List NodeAddress) :
    List String :=
  (addresses.filter fun a =>
    eligible d a && decide (d.suitableType a.Address = recordType)).map NodeAddress.Address

/-- A host-network pod on `edgeNode` whose hostname annotation names one host twice. -/
def twicePod : Pod :=
  { Name := "twice"
    Annotations := [(hostnameAnnotationKey, "a.example.com,a.example.com")]
    HostNetwork := true
    NodeName := "node-1"
    PodIP := "192.0.2.10" }

/-- Two pods that differ at most in their name and in what they carry under the two
kops annotation keys. -/
def sameButKops (d : Deps) (p p' : Pod) : Prop :=
  p.HostNetwork = p'.HostNetwork ∧ p.NodeName = p'.NodeName ∧ p.PodIP = p'.PodIP ∧
    ∀ key, key ≠ d.kopsDNSControllerInternalHostnameAnnotationKey →
      key ≠ d.kopsDNSControllerHostnameAnnotationKey →
      p.Annotations.lookup key = p'.Annotations.lookup key

/-- The two kops annotation keys differ from the two primary keys. -/
def Deps.kopsKeysApart (d : Deps) : Prop :=
  d.internalHostnameAnnotationKey ≠ d.kopsDNSControllerInternalHostnameAnnotationKey ∧
    d.internalHostnameAnnotationKey ≠ d.kopsDNSControllerHostnameAnnotationKey ∧
    d.hostnameAnnotationKey ≠ d.kopsDNSControllerInternalHostnameAnnotationKey ∧
    d.hostnameAnnotationKey ≠ d.kopsDNSControllerHostnameAnnotationKey

instance Deps.decidableKopsKeysApart (d : Deps) : Decidable d.kopsKeysApart := by
  unfold Deps.kopsKeysApart
  infer_instance

/-- A host-network pod whose only annotation is the internal hostname. -/
def dbPod : Pod :=
  { Name := "db-0"
    Annotations := [(internalHostnameAnnotationKey, "db.example.com")]
    HostNetwork := true
    NodeName := "node-1"
    PodIP := "10.0.0.5" }

/-- A second pod with the same IP, whose annotation splits to the same hostname. -/
def dbPodAgain : Pod :=
  { Name := "db-1"
    Annotations := [(internalHostnameAnnotationKey, " db.example.com ,")]
    HostNetwork := true
    NodeName := "node-1"
    PodIP := "10.0.0.5" }

/-- A host-network pod with the primary annotations and both kops annotations. -/
def legacyPod : Pod :=
  { Name := "legacy"
    Annotations :=
      [(internalHostnameAnnotationKey, "in.example.com"),
       (kopsDNSControllerInternalHostnameAnnotationKey, "kin.example.com"),
       (hostnameAnnotationKey, "out.example.com"),
       (kopsDNSControllerHostnameAnnotationKey, "kout.example.com")]
    HostNetwork := true
    NodeName := "node-1"
    PodIP := "10.0.0.5" }

/-- The pod `legacyPod` without its kops annotations. -/
def plainPod : Pod :=
  { legacyPod with
    Annotations :=
      [(internalHostnameAnnotationKey, "in.example.com"),
       (hostnameAnnotationKey, "out.example.com")] }

/-- A host-network pod whose primary and kops internal-hostname annotations name the
same host. -/
def bothSamePod : Pod :=
  { Name := "both-same"
    Annotations :=
      [(internalHostnameAnnotationKey, "db.example.com"),
       (kopsDNSControllerInternalHostnameAnnotationKey, "db.example.com")]
    HostNetwork := true
    NodeName := "node-1"
    PodIP := "10.0.0.5" }

/-- A host-network pod whose primary and kops internal-hostname annotations name
different hosts. -/
def bothApartPod : Pod :=
  { Name := "both-apart"
    Annotations :=
      [(internalHostnameAnnotationKey, "db.example.com"),
       (kopsDNSControllerInternalHostnameAnnotationKey, "old.example.com")]
    HostNetwork := true
    NodeName := "node-1"
    PodIP := "10.0.0.5" }

/-- A host-network pod with the hostname annotation, scheduled on a node that the
node lister does not know. -/
def orphanPod : Pod :=
  { Name := "orphan"
    Annotations := [(hostnameAnnotationKey, "svc.example.com")]
    HostNetwork := true
    NodeName := "gone"
    PodIP := "192.0.2.10" }

/-- A source whose pod listing fails. -/
def failingSource : podSource :=
  { edgeSource with podInformer := fun _ => .error "cache unavailable" }

/-- The pod of the first end-to-end scenario of the spec, with any name and node. -/
def scenarioOnePod (name nodeName : String) : Pod :=
  { Name := name
    Annotations := [(internalHostnameAnnotationKey, "a.example.com, b.example.com")]
    HostNetwork := true
    NodeName := nodeName
    PodIP := "192.0.2.10" }

/-- The pod of the second end-to-end scenario of the spec, with any name, node name and
IP. -/
def scenarioTwoPod (name nodeName podIP : String) : Pod :=
  { Name := name
    Annotations := [(hostnameAnnotationKey, "svc.example.com")]
    HostNetwork := true
    NodeName := nodeName
    PodIP := podIP }

/-- A small map with two keys. -/
def twoKeyMap : EndpointMap :=
  [(⟨"a.example.com", "A"⟩, ["192.0.2.1"]), (⟨"b.example.com", "A"⟩, ["192.0.2.2"])]

/-- A node whose only address is an internal IPv4 address. -/
def innerNode : Node :=
  { Name := "node-2"
    Addresses := [{ type := NodeInternalIP, Address := "10.0.0.9" }] }

/-- A source in standard mode that knows `innerNode`. -/
def innerSource : podSource :=
  { «namespace» := "default"
    podInformer := fun _ => .ok []
    nodeInformer := fun name => if name = "node-2" then some innerNode else none
    compatibility := "" }

/-- A host-network pod on `innerNode` with an internal-hostname and a hostname
annotation. -/
def mixedPod : Pod :=
  { Name := "mixed"
    Annotations :=
      [(internalHostnameAnnotationKey, "in.example.com"),
       (hostnameAnnotationKey, "out.example.com")]
    HostNetwork := true
    NodeName := "node-2"
    PodIP := "10.0.0.5" }

/-- What every call of `addToEndpointMap` in `Endpoints` has: the record type is the
classification of the address, and the domain comes out of a split annotation. -/
def Emission.fromAnnotation (d : Deps) (e : Emission) : Prop :=
  e.recordType = d.suitableType e.address ∧ ∃ value, e.domain ∈ d.splitHostnameAnnotation value

/-- A valid IP literal in text form, of either family. -/
def isIPText (s : String) : Bool :=
  isIPv4Text s.data || isIPv6Text s.data

/-- A host-network pod whose internal-hostname annotation has an empty and a
whitespace-only segment. -/
def raggedPod : Pod :=
  { Name := "ragged"
    Annotations := [(internalHostnameAnnotationKey, "a.example.com, ,")]
    HostNetwork := true
    NodeName := "node-1"
    PodIP := "10.0.0.5" }

/-- A host-network pod that has no IP yet, with an internal-hostname annotation. -/
def pendingPod : Pod :=
  { Name := "pending"
    Annotations := [(internalHostnameAnnotationKey, "db.example.com")]
    HostNetwork := true
    NodeName := "node-1"
    PodIP := "" }

/-- A host-network pod whose internal-hostname annotation is a lone comma. -/
def commaPod : Pod :=
  { Name := "comma"
    Annotations := [(internalHostnameAnnotationKey, ",")]
    HostNetwork := true
    NodeName := "node-1"
    PodIP := "10.0.0.5" }

/-- The calls of a round that did not fault; none for a round that did. -/
def okEmissions (r : Except Failure (List Emission)) : List Emission :=
  match r with
  | .ok es => es
  | .error _ => []

/-- The node without its addresses of a kind other than ExternalIP and InternalIP. -/
def Node.withoutOtherKinds (node : Node) : Node :=
  { node with
    Addresses := node.Addresses.filter fun a =>
      decide (a.type = NodeExternalIP ∨ a.type = NodeInternalIP) }

/-- The source whose node lister hands out every node without its addresses of a kind
other than ExternalIP and InternalIP. -/
def podSource.withoutOtherKinds (ps : podSource) : podSource :=
  { ps with nodeInformer := fun name => (ps.nodeInformer name).map Node.withoutOtherKinds }

/-- A node that advertises a host name, an internal DNS name that reads as an IPv6
literal, an external DNS name and one external IP. -/
def namedNode : Node :=
  { Name := "node-3"
    Addresses :=
      [{ type := "Hostname", Address := "203.0.113.9" },
       { type := "InternalDNS", Address := "2001:db8::9" },
       { type := "ExternalDNS", Address := "node-3.example.net" },
       { type := NodeExternalIP, Address := "203.0.113.5" }] }

/-- A source in kops compatibility mode that knows `namedNode` and lists no pod. -/
def namedSource : podSource :=
  { «namespace» := "default"
    podInformer := fun _ => .ok []
    nodeInformer := fun name => if name = "node-3" then some namedNode else none
    compatibility := "kops-dns-controller" }

/-- A host-network pod on `namedNode` with the hostname and the kops hostname
annotation. -/
def namedPod : Pod :=
  { Name := "named"
    Annotations :=
      [(hostnameAnnotationKey, "svc.example.com"),
       (kopsDNSControllerHostnameAnnotationKey, "old.example.com")]
    HostNetwork := true
    NodeName := "node-3"
    PodIP := "192.0.2.10" }

/-- Two readings of an annotation key that are both absent, or both present with the
same segments that are not blank. -/
def sameSolidSegments (v v' : Option String) : Prop :=
  match v, v' with
  | none, none => True
  | some a, some b => solidSegments a = solidSegments b
  | _, _ => False

/-- Two pods that differ at most in their name and in the blank segments of their
annotation values. -/
def sameButBlankSegments (p p' : Pod) : Prop :=
  p.HostNetwork = p'.HostNetwork ∧ p.NodeName = p'.NodeName ∧ p.PodIP = p'.PodIP ∧
    ∀ key, sameSolidSegments (p.Annotations.lookup key) (p'.Annotations.lookup key)

/-- A host-network pod whose internal-hostname annotation has, around one hostname, an
empty segment and segments of a space, a vertical tab (U+000B) and a no-break space
(U+00A0). -/
def paddedPod : Pod :=
  { Name := "padded"
    Annotations :=
      [(internalHostnameAnnotationKey, ", ,\x0b,a.example.com,\u00a0,")]
    HostNetwork := true
    NodeName := "node-1"
    PodIP := "10.0.0.5" }

/-- The pod `paddedPod` with the hostname alone in the annotation. -/
def trimmedPod : Pod :=
  { paddedPod with Annotations := [(internalHostnameAnnotationKey, "a.example.com")] }

/-! ## The map: reads after writes -/

theorem EndpointMap.get?_store_self (m : EndpointMap) (k : endpointKey) (v : List String) :
    (m.store k v).get? k = some v := by
  induction m with
  | nil => simp [EndpointMap.store, EndpointMap.get?]
  | cons e rest ih =>
    obtain ⟨k', w⟩ := e
    by_cases h : k' = k
    · simp [EndpointMap.store, EndpointMap.get?, h]
    · simp [EndpointMap.store, EndpointMap.get?, h, ih]

theorem EndpointMap.get?_store_other (m : EndpointMap) {k k' : endpointKey}
    (v : List String) (h : k' ≠ k) : (m.store k v).get? k' = m.get? k' := by
  induction m with
  | nil =>
    have h' : ¬ k = k' := fun e => h e.symm
    simp [EndpointMap.store, EndpointMap.get?, h']
  | cons e rest ih =>
    obtain ⟨k0, w⟩ := e
    by_cases h0 : k0 = k
    · subst h0
      have h' : ¬ k0 = k' := fun e => h e.symm
      simp [EndpointMap.store, EndpointMap.get?, h']
    · by_cases h1 : k0 = k'
      · subst h1
        simp [EndpointMap.store, EndpointMap.get?, h0]
      · simp [EndpointMap.store, EndpointMap.get?, h0, h1, ih]

theorem EndpointMap.store_store (m : EndpointMap) (k : endpointKey) (v w : List String) :
    (m.store k v).store k w = m.store k w := by
  induction m with
  | nil => simp [EndpointMap.store]
  | cons e rest ih =>
    obtain ⟨k', u⟩ := e
    by_cases h : k' = k
    · simp [EndpointMap.store, h]
    · simp [EndpointMap.store, h, ih]

theorem EndpointMap.keys_store (m : EndpointMap) (k : endpointKey) (v : List String) :
    (m.store k v).keys = if k ∈ m.keys then m.keys else m.keys ++ [k] := by
  induction m with
  | nil => simp [EndpointMap.store, EndpointMap.keys]
  | cons e rest ih =>
    obtain ⟨k', u⟩ := e
    by_cases h : k' = k
    · subst h
      simp [EndpointMap.store, EndpointMap.keys]
    · have h' : ¬ k = k' := fun e => h e.symm
      simp only [EndpointMap.keys] at ih
      by_cases hm : k ∈ rest.map Prod.fst
      · simp [EndpointMap.store, EndpointMap.keys, h, h', hm, ih]
      · simp [EndpointMap.store, EndpointMap.keys, h, h', hm, ih]

theorem EndpointMap.get?_eq_none_iff (m : EndpointMap) (k : endpointKey) :
    m.get? k = none ↔ k ∉ m.keys := by
  induction m with
  | nil => simp [EndpointMap.get?, EndpointMap.keys]
  | cons e rest ih =>
    obtain ⟨k', u⟩ := e
    by_cases h : k' = k
    · subst h
      simp [EndpointMap.get?, EndpointMap.keys]
    · have h' : ¬ k = k' := fun e => h e.symm
      simp only [EndpointMap.keys] at ih
      simp [EndpointMap.get?, EndpointMap.keys, h, h', ih]

theorem EndpointMap.index_store_self (m : EndpointMap) (k : endpointKey) (v : List String) :
    (m.store k v).index k = v := by
  simp [EndpointMap.index, EndpointMap.get?_store_self]

theorem EndpointMap.index_store_other (m : EndpointMap) {k k' : endpointKey}
    (v : List String) (h : k' ≠ k) : (m.store k v).index k' = m.index k' := by
  simp [EndpointMap.index, EndpointMap.get?_store_other m v h]

/-- The two steps of `addToEndpointMap` amount to one assignment. -/
theorem addToEndpointMap_eq_store (m : EndpointMap) (domain recordType address : String) :
    addToEndpointMap m domain recordType address =
      m.store ⟨domain, recordType⟩ (m.index ⟨domain, recordType⟩ ++ [address]) := by
  unfold addToEndpointMap
  cases hg : m.get? ⟨domain, recordType⟩ with
  | none =>
    simp [EndpointMap.store_store, EndpointMap.index, EndpointMap.get?_store_self, hg]
  | some v => simp [hg]

theorem keys_addToEndpointMap (m : EndpointMap) (domain recordType address : String) :
    (addToEndpointMap m domain recordType address).keys =
      if (⟨domain, recordType⟩ : endpointKey) ∈ m.keys then m.keys
      else m.keys ++ [⟨domain, recordType⟩] := by
  rw [addToEndpointMap_eq_store, EndpointMap.keys_store]

theorem index_addToEndpointMap (m : EndpointMap) (domain recordType address : String)
    (k : endpointKey) :
    (addToEndpointMap m domain recordType address).index k =
      if k = ⟨domain, recordType⟩ then m.index k ++ [address] else m.index k := by
  rw [addToEndpointMap_eq_store]
  by_cases h : k = ⟨domain, recordType⟩
  · subst h
    simp [EndpointMap.index_store_self]
  · simp [EndpointMap.index_store_other m _ h, h]

theorem nodup_keys_addToEndpointMap (m : EndpointMap) (domain recordType address : String)
    (h : m.keys.Nodup) : (addToEndpointMap m domain recordType address).keys.Nodup := by
  rw [keys_addToEndpointMap]
  split
  · exact h
  · rename_i hk
    exact List.Nodup.append h (List.nodup_singleton _) (by simpa using hk)

/-! ## The loops as replayed calls -/

theorem applyEmissions_append (m : EndpointMap) (es es' : List Emission) :
    applyEmissions m (es ++ es') = applyEmissions (applyEmissions m es) es' := by
  simp [applyEmissions, List.foldl_append]

theorem index_applyEmissions (es : List Emission) (m : EndpointMap) (k : endpointKey) :
    (applyEmissions m es).index k =
      m.index k ++ (es.filter fun e => decide (e.key = k)).map Emission.address := by
  induction es generalizing m with
  | nil => simp [applyEmissions]
  | cons e rest ih =>
    have hstep : applyEmissions m (e :: rest) =
        applyEmissions (addToEndpointMap m e.domain e.recordType e.address) rest := rfl
    rw [hstep, ih, index_addToEndpointMap]
    by_cases h : e.key = k
    · have h' : k = ⟨e.domain, e.recordType⟩ := h.symm
      simp [List.filter_cons, h, h']
    · have h' : ¬ k = ⟨e.domain, e.recordType⟩ := fun c => h c.symm
      simp [List.filter_cons, h, h']

theorem nodup_keys_applyEmissions (es : List Emission) (m : EndpointMap)
    (h : m.keys.Nodup) : (applyEmissions m es).keys.Nodup := by
  induction es generalizing m with
  | nil => simpa [applyEmissions] using h
  | cons e rest ih =>
    exact ih _ (nodup_keys_addToEndpointMap m e.domain e.recordType e.address h)

theorem mem_keys_applyEmissions (es : List Emission) (m : EndpointMap) (k : endpointKey) :
    k ∈ (applyEmissions m es).keys ↔ k ∈ m.keys ∨ k ∈ es.map Emission.key := by
  induction es generalizing m with
  | nil => simp [applyEmissions]
  | cons e rest ih =>
    have hstep : applyEmissions m (e :: rest) =
        applyEmissions (addToEndpointMap m e.domain e.recordType e.address) rest := rfl
    rw [hstep, ih, keys_addToEndpointMap]
    have hk : e.key = ⟨e.domain, e.recordType⟩ := rfl
    by_cases hm : (⟨e.domain, e.recordType⟩ : endpointKey) ∈ m.keys
    · simp only [hm, if_true, List.map_cons, List.mem_cons, hk]
      constructor
      · rintro (h | h)
        · exact Or.inl h
        · exact Or.inr (Or.inr h)
      · rintro (h | h | h)
        · exact Or.inl h
        · exact Or.inl (h ▸ hm)
        · exact Or.inr h
    · simp only [hm, if_false, List.map_cons, List.mem_cons, hk, List.mem_append,
        List.mem_singleton]
      tauto

theorem addPodIP_eq (d : Deps) (pod : Pod) (domainList : List String) (m : EndpointMap) :
    addPodIP d pod m domainList = applyEmissions m (podIPEmissions d pod domainList) := by
  simp [addPodIP, applyEmissions, podIPEmissions, List.foldl_map]

theorem foldl_addNodeAddress_eq (d : Deps) (domain : String) (addresses : List NodeAddress)
    (m : EndpointMap) :
    addresses.foldl (addNodeAddress d domain) m =
      applyEmissions m (nodeEmissions d domain addresses) := by
  induction addresses generalizing m with
  | nil => rfl
  | cons a rest ih =>
    rw [List.foldl_cons, ih]
    by_cases h : a.type = NodeExternalIP ∨
        (a.type = NodeInternalIP ∧ d.suitableType a.Address = RecordTypeAAAA)
    · simp [addNodeAddress, nodeEmissions, eligible, h, applyEmissions]
    · simp [addNodeAddress, nodeEmissions, eligible, h, applyEmissions]

/-- A loop whose every round replays a list of calls, or faults, replays the collected
calls, or faults. -/
theorem foldlM_eq_collect {α : Type} (g : α → Except Failure (List Emission))
    (step : EndpointMap → α → Except Failure EndpointMap)
    (hstep : ∀ m x, step m x = (g x).map (applyEmissions m)) (xs : List α)
    (m : EndpointMap) :
    xs.foldlM step m = (collect g xs).map (applyEmissions m) := by
  induction xs generalizing m with
  | nil => rfl
  | cons x rest ih =>
    rw [List.foldlM_cons, hstep]
    cases hg : g x with
    | error f =>
      simp only [collect, hg]
      rfl
    | ok es =>
      have : (Except.map (applyEmissions m) (Except.ok es) >>= fun init =>
          List.foldlM step init rest) = List.foldlM step (applyEmissions m es) rest := rfl
      rw [this, ih]
      simp only [collect, hg]
      cases hc : collect g rest with
      | error f => rfl
      | ok es' =>
        show Except.ok _ = Except.ok _
        rw [applyEmissions_append]

theorem addNodeAddresses_eq (d : Deps) (ps : podSource) (pod : Pod) (m : EndpointMap)
    (domain : String) :
    addNodeAddresses d ps pod m domain =
      (domainEmissions d ps pod domain).map (applyEmissions m) := by
  unfold addNodeAddresses domainEmissions
  cases ps.nodeInformer pod.NodeName with
  | none => rfl
  | some node =>
    show Except.ok _ = Except.ok _
    rw [foldl_addNodeAddress_eq]

theorem internalHostnameBlock_eq (d : Deps) (key : String) (pod : Pod) (m : EndpointMap) :
    internalHostnameBlock d key pod m =
      applyEmissions m (internalHostnameEmissions d key pod) := by
  unfold internalHostnameBlock internalHostnameEmissions
  cases pod.Annotations.lookup key with
  | none => rfl
  | some a => exact addPodIP_eq d pod _ m

theorem hostnameBlock_eq (d : Deps) (ps : podSource) (key : String) (pod : Pod)
    (m : EndpointMap) :
    hostnameBlock d ps key pod m =
      (hostnameEmissions d ps key pod).map (applyEmissions m) := by
  unfold hostnameBlock hostnameEmissions
  cases pod.Annotations.lookup key with
  | none => rfl
  | some a =>
    exact foldlM_eq_collect (domainEmissions d ps pod) (addNodeAddresses d ps pod)
      (fun m x => addNodeAddresses_eq d ps pod m x) _ m

theorem podStep_eq (d : Deps) (ps : podSource) (m : EndpointMap) (pod : Pod) :
    podStep d ps m pod = (podEmissions d ps pod).map (applyEmissions m) := by
  unfold podStep podEmissions
  by_cases hn : pod.HostNetwork = true
  · simp only [hn, Bool.not_true, Bool.false_eq_true, if_false]
    rw [hostnameBlock_eq, internalHostnameBlock_eq]
    cases h2 : hostnameEmissions d ps d.hostnameAnnotationKey pod with
    | error f => rfl
    | ok e2 =>
      by_cases hc : ps.compatibility = "kops-dns-controller"
      · simp only [hc, if_true]
        show hostnameBlock d ps d.kopsDNSControllerHostnameAnnotationKey pod
          (internalHostnameBlock d d.kopsDNSControllerInternalHostnameAnnotationKey pod _) = _
        rw [hostnameBlock_eq, internalHostnameBlock_eq]
        cases h4 : hostnameEmissions d ps d.kopsDNSControllerHostnameAnnotationKey pod with
        | error f => rfl
        | ok e4 =>
          show Except.ok _ = Except.ok _
          simp only [applyEmissions_append]
      · simp only [hc, if_false]
        show Except.ok _ = Except.ok _
        simp only [applyEmissions_append]
  · have hn' : pod.HostNetwork = false := by simpa using hn
    simp only [hn', Bool.not_false, if_true]
    rfl

/-- The map of lines 85-135 is the replay, on the empty map, of the calls the pods
make, unless a pod faults. -/
theorem buildEndpointMap_eq (d : Deps) (ps : podSource) (pods : List Pod) :
    buildEndpointMap d ps pods =
      (collect (podEmissions d ps) pods).map (applyEmissions []) :=
  foldlM_eq_collect (podEmissions d ps) (podStep d ps) (podStep_eq d ps) pods []

theorem Endpoints_withPods (d : Deps) (ps : podSource) (pods : List Pod) :
    Endpoints d (ps.withPods pods) =
      (collect (podEmissions d ps) pods).map fun es => toEndpoints (applyEmissions [] es) := by
  have hps : podEmissions d (ps.withPods pods) = podEmissions d ps := rfl
  unfold Endpoints
  show (match buildEndpointMap d (ps.withPods pods) pods with
    | .error f => Except.error f
    | .ok endpointMap => Except.ok (toEndpoints endpointMap)) = _
  rw [buildEndpointMap_eq, hps]
  cases collect (podEmissions d ps) pods with
  | error f => rfl
  | ok es => rfl

/-! ## The returned endpoints read through the map -/

theorem map_key_toEndpoints (m : EndpointMap) :
    (toEndpoints m).map Endpoint.key = m.keys.map fun k => (k.dnsName, k.recordType) := by
  simp [toEndpoints, EndpointMap.keys, Endpoint.key, NewEndpoint, Function.comp_def]

theorem targetsFor_toEndpoints (m : EndpointMap) (dnsName recordType : String) :
    targetsFor (toEndpoints m) dnsName recordType = m.index ⟨dnsName, recordType⟩ := by
  induction m with
  | nil => rfl
  | cons e rest ih =>
    obtain ⟨⟨n, t⟩, v⟩ := e
    by_cases h : n = dnsName ∧ t = recordType
    · obtain ⟨rfl, rfl⟩ := h
      simp [targetsFor, toEndpoints, NewEndpoint, EndpointMap.index, EndpointMap.get?]
    · have hk : ¬ (⟨n, t⟩ : endpointKey) = ⟨dnsName, recordType⟩ := by
        intro c
        injection c with h1 h2
        exact h ⟨h1, h2⟩
      have ih' := ih
      simp only [targetsFor, toEndpoints, EndpointMap.index] at ih'
      simp only [targetsFor, toEndpoints, NewEndpoint, EndpointMap.index, EndpointMap.get?,
        List.map_cons, List.find?_cons, hk, if_false, h, decide_False]
      exact ih'

theorem nodup_key_toEndpoints (m : EndpointMap) (h : m.keys.Nodup) :
    ((toEndpoints m).map Endpoint.key).Nodup := by
  rw [map_key_toEndpoints]
  refine List.Nodup.map ?_ h
  intro a b hab
  cases a
  cases b
  simp only [Prod.mk.injEq] at hab
  simp [hab.1, hab.2]

/-! ## Pods outside the host network -/

theorem podEmissions_of_not_hostNetwork (d : Deps) (ps : podSource) (pod : Pod)
    (h : pod.HostNetwork = false) : podEmissions d ps pod = .ok [] := by
  simp [podEmissions, h]

theorem collect_filter_hostNetwork (d : Deps) (ps : podSource) (pods : List Pod) :
    collect (podEmissions d ps) (pods.filter fun p => p.HostNetwork) =
      collect (podEmissions d ps) pods := by
  induction pods with
  | nil => rfl
  | cons p rest ih =>
    by_cases h : p.HostNetwork = true
    · simp only [List.filter_cons, h, if_true, collect, ih]
    · have h' : p.HostNetwork = false := by simpa using h
      simp only [List.filter_cons, h', Bool.false_eq_true, if_false, collect, ih,
        podEmissions_of_not_hostNetwork d ps p h']
      cases collect (podEmissions d ps) rest with
      | error f => rfl
      | ok es => simp

theorem collect_of_no_hostNetwork (d : Deps) (ps : podSource) (pods : List Pod)
    (h : ∀ p ∈ pods, p.HostNetwork = false) : collect (podEmissions d ps) pods = .ok [] := by
  induction pods with
  | nil => rfl
  | cons p rest ih =>
    have hp : p.HostNetwork = false := h p (List.mem_cons_self _ _)
    have hr := ih fun q hq => h q (List.mem_cons_of_mem _ hq)
    simp [collect, podEmissions_of_not_hostNetwork d ps p hp, hr]

/-- C1: for every pod list, node lookup and compatibility value, `Endpoints` returns on
the pod list what it returns on the list without the pods whose `HostNetwork` flag is
false, whatever those pods carry; and when no pod has the flag set, it returns the empty
list and no error. -/
theorem endpoints_ignore_pods_outside_host_network (d : Deps) (ps : podSource)
    (pods : List Pod) :
    Endpoints d (ps.withPods pods) =
        Endpoints d (ps.withPods (pods.filter fun p => p.HostNetwork)) ∧
      ((∀ p ∈ pods, p.HostNetwork = false) → Endpoints d (ps.withPods pods) = .ok []) := by
  refine ⟨?_, fun h => ?_⟩
  · rw [Endpoints_withPods, Endpoints_withPods, collect_filter_hostNetwork]
  · rw [Endpoints_withPods, collect_of_no_hostNetwork d ps pods h]
    rfl

/-- Witness of C1 at a pod outside the host network that carries all four annotations,
in kops compatibility mode. -/
theorem endpoints_ignore_pods_outside_host_network_witness :
    (∀ p ∈ [overlayPod], p.HostNetwork = false) ∧
      Endpoints specDeps (kopsSource.withPods [overlayPod]) = .ok [] :=
  ⟨by decide,
    (endpoints_ignore_pods_outside_host_network specDeps kopsSource [overlayPod]).2
      (by decide)⟩

/-! ## One endpoint per key -/

/-- C2: whenever `Endpoints` succeeds, no two endpoints of the returned list have the
same (DNS name, record type) pair. -/
theorem endpoints_keys_nodup (d : Deps) (ps : podSource) (out : List Endpoint)
    (h : Endpoints d ps = .ok out) : (out.map Endpoint.key).Nodup := by
  unfold Endpoints at h
  cases hl : ps.podInformer ps.«namespace» with
  | error e => simp [hl] at h
  | ok pods =>
    simp only [hl] at h
    rw [buildEndpointMap_eq] at h
    cases hc : collect (podEmissions d ps) pods with
    | error f =>
      rw [hc] at h
      cases h
    | ok es =>
      rw [hc] at h
      have hout : toEndpoints (applyEmissions [] es) = out := by
        injection h
      rw [← hout]
      exact nodup_key_toEndpoints _ (nodup_keys_applyEmissions es [] List.nodup_nil)

/-- Witness of C2: a pod whose node gives the same DNS name an IPv4 and an IPv6
endpoint. -/
theorem endpoints_keys_nodup_witness :
    Endpoints specDeps (edgeSource.withPods [svcPod]) =
        .ok [⟨"svc.example.com", "A", ["203.0.113.5"]⟩,
          ⟨"svc.example.com", "AAAA", ["2001:db8::5"]⟩] ∧
      (([⟨"svc.example.com", "A", ["203.0.113.5"]⟩,
          ⟨"svc.example.com", "AAAA", ["2001:db8::5"]⟩] : List Endpoint).map
        Endpoint.key).Nodup :=
  ⟨by decide, endpoints_keys_nodup specDeps (edgeSource.withPods [svcPod]) _ (by decide)⟩

/-! ## The hostname annotation and the node's addresses -/

theorem collect_of_ok {α : Type} (g : α → Except Failure (List Emission))
    (f : α → List Emission) (xs : List α) (h : ∀ x ∈ xs, g x = .ok (f x)) :
    collect g xs = .ok (xs.flatMap f) := by
  induction xs with
  | nil => rfl
  | cons x rest ih =>
    have hx := h x (List.mem_cons_self _ _)
    have hr := ih fun y hy => h y (List.mem_cons_of_mem _ hy)
    simp [collect, hx, hr]

theorem collect_singleton {α : Type} (g : α → Except Failure (List Emission)) (x : α) :
    collect g [x] = g x := by
  cases h : g x with
  | error f => simp [collect, h]
  | ok es => simp [collect, h]

theorem filter_key_nodeEmissions (d : Deps) (domain h t : String)
    (addresses : List NodeAddress) :
    ((nodeEmissions d domain addresses).filter fun e =>
        decide (e.key = ⟨h, t⟩)).map Emission.address =
      if domain = h then eligibleTargets d t addresses else [] := by
  by_cases hd : domain = h
  · simp only [hd, if_true]
    induction addresses with
    | nil => simp [nodeEmissions, eligibleTargets]
    | cons a rest ih =>
      simp only [nodeEmissions, eligibleTargets] at ih
      by_cases he : eligible d a = true
      · by_cases ht : d.suitableType a.Address = t
        · simp [nodeEmissions, eligibleTargets, List.filter_cons, he, ht, Emission.key, ← ih]
        · simp [nodeEmissions, eligibleTargets, List.filter_cons, he, ht, Emission.key, ← ih]
      · simp [nodeEmissions, eligibleTargets, List.filter_cons, he, Emission.key, ← ih]
  · have hnil : (nodeEmissions d domain addresses).filter
        (fun e => decide (e.key = ⟨h, t⟩)) = [] := by
      rw [List.filter_eq_nil_iff]
      intro e he
      simp only [nodeEmissions, List.mem_map] at he
      obtain ⟨x, _, rfl⟩ := he
      simp [Emission.key, hd]
    simp [hnil, hd]

theorem filter_key_flatMap_nodeEmissions (d : Deps) (h t : String)
    (addresses : List NodeAddress) (domainList : List String) :
    ((domainList.flatMap fun domain => nodeEmissions d domain addresses).filter fun e =>
        decide (e.key = ⟨h, t⟩)).map Emission.address =
      (List.replicate (domainList.count h) (eligibleTargets d t addresses)).flatten := by
  induction domainList with
  | nil => simp
  | cons domain rest ih =>
    rw [List.flatMap_cons, List.filter_append, List.map_append, ih,
      filter_key_nodeEmissions]
    by_cases hd : domain = h
    · subst hd
      simp [List.replicate_succ]
    · have hb : (domain == h) = false := by simpa using hd
      simp [hd, List.count_cons, hb]

theorem mem_eligibleTargets (d : Deps) (t s : String) (addresses : List NodeAddress)
    (h : s ∈ eligibleTargets d t addresses) :
    ∃ a ∈ addresses, a.Address = s ∧ d.suitableType s = t ∧
      (a.type = NodeExternalIP ∨
        (a.type = NodeInternalIP ∧ d.suitableType s = RecordTypeAAAA)) := by
  simp only [eligibleTargets, eligible, List.mem_map, List.mem_filter, Bool.and_eq_true,
    decide_eq_true_eq] at h
  obtain ⟨a, ⟨ha, hel, ht⟩, rfl⟩ := h
  exact ⟨a, ha, rfl, ht, hel⟩

/-- The calls of a host-network pod whose only annotation is the hostname and whose
node is found. -/
theorem podEmissions_hostname_only (d : Deps) (ps : podSource) (pod : Pod) (value : String)
    (node : Node) (hn : pod.HostNetwork = true)
    (hi : pod.Annotations.lookup d.internalHostnameAnnotationKey = none)
    (hh : pod.Annotations.lookup d.hostnameAnnotationKey = some value)
    (hki : pod.Annotations.lookup d.kopsDNSControllerInternalHostnameAnnotationKey = none)
    (hkh : pod.Annotations.lookup d.kopsDNSControllerHostnameAnnotationKey = none)
    (hnode : ps.nodeInformer pod.NodeName = some node) :
    podEmissions d ps pod =
      .ok ((d.splitHostnameAnnotation value).flatMap fun domain =>
        nodeEmissions d domain node.Addresses) := by
  have h2 : hostnameEmissions d ps d.hostnameAnnotationKey pod =
      .ok ((d.splitHostnameAnnotation value).flatMap fun domain =>
        nodeEmissions d domain node.Addresses) := by
    simp only [hostnameEmissions, hh]
    exact collect_of_ok _ _ _ fun x _ => by simp [domainEmissions, hnode]
  have h4 : hostnameEmissions d ps d.kopsDNSControllerHostnameAnnotationKey pod = .ok [] := by
    simp [hostnameEmissions, hkh]
  by_cases hc : ps.compatibility = "kops-dns-controller"
  · simp [podEmissions, hn, h2, h4, hc, internalHostnameEmissions, hi, hki]
  · simp [podEmissions, hn, h2, hc, internalHostnameEmissions, hi]

/-- C3 (amended): for a single host-network pod that carries only the hostname
annotation and whose node is found, `Endpoints` succeeds, and for every hostname `h` and
record type `t` the targets of the endpoint `(h, t)` are the node's addresses classified
`t` that are of kind ExternalIP, or of kind InternalIP and classified AAAA, in node order,
once for every occurrence of `h` in the split annotation; every target comes from such an
address, so an InternalIP address classified A is never one. -/
theorem hostname_targets_per_occurrence (d : Deps) (ps : podSource) (pod : Pod)
    (value : String) (node : Node) (hn : pod.HostNetwork = true)
    (hi : pod.Annotations.lookup d.internalHostnameAnnotationKey = none)
    (hh : pod.Annotations.lookup d.hostnameAnnotationKey = some value)
    (hki : pod.Annotations.lookup d.kopsDNSControllerInternalHostnameAnnotationKey = none)
    (hkh : pod.Annotations.lookup d.kopsDNSControllerHostnameAnnotationKey = none)
    (hnode : ps.nodeInformer pod.NodeName = some node) :
    ∃ out, Endpoints d (ps.withPods [pod]) = .ok out ∧
      (∀ h t, targetsFor out h t =
        (List.replicate ((d.splitHostnameAnnotation value).count h)
          (eligibleTargets d t node.Addresses)).flatten) ∧
      ∀ h t s, s ∈ targetsFor out h t →
        ∃ a ∈ node.Addresses, a.Address = s ∧ d.suitableType s = t ∧
          (a.type = NodeExternalIP ∨
            (a.type = NodeInternalIP ∧ d.suitableType s = RecordTypeAAAA)) := by
  have hout : ∀ h t,
      targetsFor (toEndpoints (applyEmissions []
        ((d.splitHostnameAnnotation value).flatMap fun domain =>
          nodeEmissions d domain node.Addresses))) h t =
      (List.replicate ((d.splitHostnameAnnotation value).count h)
        (eligibleTargets d t node.Addresses)).flatten := by
    intro h t
    rw [targetsFor_toEndpoints, index_applyEmissions, filter_key_flatMap_nodeEmissions]
    simp [EndpointMap.index, EndpointMap.get?]
  refine ⟨_, ?_, hout, ?_⟩
  · rw [Endpoints_withPods, collect_singleton,
      podEmissions_hostname_only d ps pod value node hn hi hh hki hkh hnode]
    rfl
  · intro h t s hs
    rw [hout] at hs
    obtain ⟨l, hl, hsl⟩ := List.mem_flatten.mp hs
    rw [List.eq_of_mem_replicate hl] at hsl
    exact mem_eligibleTargets d t s node.Addresses hsl

/-- Witness of C3 (amended) at the pod of the second end-to-end scenario. -/
theorem hostname_targets_per_occurrence_witness :
    ∃ out, Endpoints specDeps (edgeSource.withPods [svcPod]) = .ok out ∧
      (∀ h t, targetsFor out h t =
        (List.replicate ((specDeps.splitHostnameAnnotation "svc.example.com").count h)
          (eligibleTargets specDeps t edgeNode.Addresses)).flatten) ∧
      ∀ h t s, s ∈ targetsFor out h t →
        ∃ a ∈ edgeNode.Addresses, a.Address = s ∧ specDeps.suitableType s = t ∧
          (a.type = NodeExternalIP ∨
            (a.type = NodeInternalIP ∧ specDeps.suitableType s = RecordTypeAAAA)) :=
  hostname_targets_per_occurrence specDeps edgeSource svcPod "svc.example.com" edgeNode
    (by decide) (by decide) (by decide) (by decide) (by decide) (by decide)

/-- C3 as stated fails: the pod carries only the hostname annotation, its node is found
and has the single eligible IPv4 address 203.0.113.5, the annotation splits to
a.example.com twice, and the endpoint (a.example.com, A) has that address twice. -/
theorem hostname_targets_exact_counterexample :
    twicePod.HostNetwork = true ∧
      twicePod.Annotations = [(specDeps.hostnameAnnotationKey, "a.example.com,a.example.com")] ∧
      edgeSource.nodeInformer twicePod.NodeName = some edgeNode ∧
      "a.example.com" ∈ specDeps.splitHostnameAnnotation "a.example.com,a.example.com" ∧
      Endpoints specDeps (edgeSource.withPods [twicePod]) =
        .ok [⟨"a.example.com", "A", ["203.0.113.5", "203.0.113.5"]⟩,
          ⟨"a.example.com", "AAAA", ["2001:db8::5", "2001:db8::5"]⟩] ∧
      eligibleTargets specDeps "A" edgeNode.Addresses = ["203.0.113.5"] ∧
      targetsFor [⟨"a.example.com", "A", ["203.0.113.5", "203.0.113.5"]⟩,
          ⟨"a.example.com", "AAAA", ["2001:db8::5", "2001:db8::5"]⟩] "a.example.com" "A" ≠
        eligibleTargets specDeps "A" edgeNode.Addresses := by
  decide

/-! ## The internal-hostname annotation and merging -/

/-- The calls of a host-network pod whose only annotation is the internal hostname. -/
theorem podEmissions_internal_only (d : Deps) (ps : podSource) (pod : Pod) (value : String)
    (hn : pod.HostNetwork = true)
    (hi : pod.Annotations.lookup d.internalHostnameAnnotationKey = some value)
    (hh : pod.Annotations.lookup d.hostnameAnnotationKey = none)
    (hki : pod.Annotations.lookup d.kopsDNSControllerInternalHostnameAnnotationKey = none)
    (hkh : pod.Annotations.lookup d.kopsDNSControllerHostnameAnnotationKey = none) :
    podEmissions d ps pod = .ok (podIPEmissions d pod (d.splitHostnameAnnotation value)) := by
  by_cases hc : ps.compatibility = "kops-dns-controller"
  · simp [podEmissions, hn, hostnameEmissions, hh, hkh, hc, internalHostnameEmissions, hi, hki]
  · simp [podEmissions, hn, hostnameEmissions, hh, hc, internalHostnameEmissions, hi]

theorem collect_pair {α : Type} (g : α → Except Failure (List Emission)) (x y : α)
    (ex ey : List Emission) (hx : g x = .ok ex) (hy : g y = .ok ey) :
    collect g [x, y] = .ok (ex ++ ey) := by
  simp [collect, hx, hy]

/-- C4: two host-network pods of the same record type `t`, listed in the order `p1`,
`p2`, both carrying only an internal-hostname annotation that splits to the single
hostname `h`, give exactly one endpoint, with key `(h, t)` and the targets
`[p1.PodIP, p2.PodIP]`; equal IPs are both kept. -/
theorem two_pods_one_hostname_merge (d : Deps) (ps : podSource) (p1 p2 : Pod)
    (v1 v2 h t : String) (hn1 : p1.HostNetwork = true) (hn2 : p2.HostNetwork = true)
    (hi1 : p1.Annotations.lookup d.internalHostnameAnnotationKey = some v1)
    (hi2 : p2.Annotations.lookup d.internalHostnameAnnotationKey = some v2)
    (hs1 : d.splitHostnameAnnotation v1 = [h]) (hs2 : d.splitHostnameAnnotation v2 = [h])
    (hh1 : p1.Annotations.lookup d.hostnameAnnotationKey = none)
    (hh2 : p2.Annotations.lookup d.hostnameAnnotationKey = none)
    (hki1 : p1.Annotations.lookup d.kopsDNSControllerInternalHostnameAnnotationKey = none)
    (hki2 : p2.Annotations.lookup d.kopsDNSControllerInternalHostnameAnnotationKey = none)
    (hkh1 : p1.Annotations.lookup d.kopsDNSControllerHostnameAnnotationKey = none)
    (hkh2 : p2.Annotations.lookup d.kopsDNSControllerHostnameAnnotationKey = none)
    (ht1 : d.suitableType p1.PodIP = t) (ht2 : d.suitableType p2.PodIP = t) :
    Endpoints d (ps.withPods [p1, p2]) = .ok [⟨h, t, [p1.PodIP, p2.PodIP]⟩] ∧
      (p1.PodIP = p2.PodIP →
        Endpoints d (ps.withPods [p1, p2]) = .ok [⟨h, t, [p1.PodIP, p1.PodIP]⟩]) := by
  have key : Endpoints d (ps.withPods [p1, p2]) = .ok [⟨h, t, [p1.PodIP, p2.PodIP]⟩] := by
    rw [Endpoints_withPods,
      collect_pair _ p1 p2 _ _ (podEmissions_internal_only d ps p1 v1 hn1 hi1 hh1 hki1 hkh1)
        (podEmissions_internal_only d ps p2 v2 hn2 hi2 hh2 hki2 hkh2)]
    simp [podIPEmissions, hs1, hs2, ht1, ht2, applyEmissions, addToEndpointMap,
      EndpointMap.get?, EndpointMap.store, EndpointMap.index, toEndpoints, NewEndpoint,
      Except.map]
  refine ⟨key, fun hip => ?_⟩
  rw [key, hip]

/-- Witness of C4: two pods with the same IP whose annotations differ as strings and
split to the same hostname. -/
theorem two_pods_one_hostname_merge_witness :
    Endpoints specDeps (edgeSource.withPods [dbPod, dbPodAgain]) =
        .ok [⟨"db.example.com", "A", [dbPod.PodIP, dbPodAgain.PodIP]⟩] ∧
      (dbPod.PodIP = dbPodAgain.PodIP →
        Endpoints specDeps (edgeSource.withPods [dbPod, dbPodAgain]) =
          .ok [⟨"db.example.com", "A", [dbPod.PodIP, dbPod.PodIP]⟩]) :=
  two_pods_one_hostname_merge specDeps edgeSource dbPod dbPodAgain "db.example.com"
    " db.example.com ," "db.example.com" "A" (by decide) (by decide) (by decide) (by decide)
    (by decide) (by decide) (by decide) (by decide) (by decide) (by decide) (by decide)
    (by decide) (by decide) (by decide)

/-! ## The kops annotations -/

/-- Outside kops compatibility mode the calls of a pod are those of the two primary
blocks. -/
theorem podEmissions_standard (d : Deps) (ps : podSource) (pod : Pod)
    (hc : ps.compatibility ≠ "kops-dns-controller") :
    podEmissions d ps pod =
      if !pod.HostNetwork then .ok []
      else
        match hostnameEmissions d ps d.hostnameAnnotationKey pod with
        | .error f => .error f
        | .ok e2 => .ok (internalHostnameEmissions d d.internalHostnameAnnotationKey pod ++ e2) := by
  unfold podEmissions
  simp only [hc, if_false]

theorem podEmissions_congr_standard (d : Deps) (ps : podSource) (p p' : Pod)
    (hc : ps.compatibility ≠ "kops-dns-controller") (hd : d.kopsKeysApart)
    (h : sameButKops d p p') : podEmissions d ps p = podEmissions d ps p' := by
  obtain ⟨hn, hnode, hip, hl⟩ := h
  obtain ⟨k1, k2, k3, k4⟩ := hd
  have hi := hl d.internalHostnameAnnotationKey k1 k2
  have hh := hl d.hostnameAnnotationKey k3 k4
  have e1 : internalHostnameEmissions d d.internalHostnameAnnotationKey p =
      internalHostnameEmissions d d.internalHostnameAnnotationKey p' := by
    simp only [internalHostnameEmissions, hi, podIPEmissions, hip]
  have hdom : domainEmissions d ps p = domainEmissions d ps p' := by
    funext domain
    simp only [domainEmissions, hnode]
  have e2 : hostnameEmissions d ps d.hostnameAnnotationKey p =
      hostnameEmissions d ps d.hostnameAnnotationKey p' := by
    simp only [hostnameEmissions, hh, hdom]
  rw [podEmissions_standard d ps p hc, podEmissions_standard d ps p' hc, hn, e1, e2]

theorem collect_congr {α : Type} (g : α → Except Failure (List Emission)) (r : α → α → Prop)
    (hr : ∀ x y, r x y → g x = g y) (xs ys : List α) (h : List.Forall₂ r xs ys) :
    collect g xs = collect g ys := by
  induction h with
  | nil => rfl
  | cons hxy _ ih => simp only [collect, hr _ _ hxy, ih]

/-- C5: for every compatibility value other than "kops-dns-controller", the empty string
included, two pod lists whose pods differ, position by position, at most in what they
carry under the two kops annotation keys give the same result of `Endpoints`. -/
theorem endpoints_ignore_kops_keys_in_standard_mode (d : Deps) (ps : podSource)
    (pods pods' : List Pod) (hc : ps.compatibility ≠ "kops-dns-controller")
    (hd : d.kopsKeysApart) (h : List.Forall₂ (sameButKops d) pods pods') :
    Endpoints d (ps.withPods pods) = Endpoints d (ps.withPods pods') := by
  rw [Endpoints_withPods, Endpoints_withPods,
    collect_congr (podEmissions d ps) (sameButKops d)
      (fun p p' hp => podEmissions_congr_standard d ps p p' hc hd hp) pods pods' h]

theorem sameButKops_legacyPod_plainPod : sameButKops specDeps legacyPod plainPod := by
  refine ⟨rfl, rfl, rfl, fun key h1 h2 => ?_⟩
  have h1' : (key == kopsDNSControllerInternalHostnameAnnotationKey) = false := by
    simpa using h1
  have h2' : (key == kopsDNSControllerHostnameAnnotationKey) = false := by
    simpa using h2
  simp only [legacyPod, plainPod, List.lookup, h1', h2']

/-- Witness of C5: with the empty compatibility value, a pod with both kops annotations
and the same pod without them. -/
theorem endpoints_ignore_kops_keys_in_standard_mode_witness :
    edgeSource.compatibility ≠ "kops-dns-controller" ∧ specDeps.kopsKeysApart ∧
      Endpoints specDeps (edgeSource.withPods [legacyPod]) =
        Endpoints specDeps (edgeSource.withPods [plainPod]) :=
  ⟨by decide, by decide,
    endpoints_ignore_kops_keys_in_standard_mode specDeps edgeSource [legacyPod] [plainPod]
      (by decide) (by decide)
      (List.Forall₂.cons sameButKops_legacyPod_plainPod List.Forall₂.nil)⟩

/-- The calls of a host-network pod in kops mode that has the two internal-hostname
annotations and neither hostname annotation. -/
theorem podEmissions_internal_both (d : Deps) (ps : podSource) (pod : Pod) (v1 v2 : String)
    (hc : ps.compatibility = "kops-dns-controller") (hn : pod.HostNetwork = true)
    (hi : pod.Annotations.lookup d.internalHostnameAnnotationKey = some v1)
    (hki : pod.Annotations.lookup d.kopsDNSControllerInternalHostnameAnnotationKey = some v2)
    (hh : pod.Annotations.lookup d.hostnameAnnotationKey = none)
    (hkh : pod.Annotations.lookup d.kopsDNSControllerHostnameAnnotationKey = none) :
    podEmissions d ps pod =
      .ok (podIPEmissions d pod (d.splitHostnameAnnotation v1) ++
        podIPEmissions d pod (d.splitHostnameAnnotation v2)) := by
  simp [podEmissions, hn, hostnameEmissions, hh, hkh, hc, internalHostnameEmissions, hi, hki]

/-- C6: with compatibility "kops-dns-controller", a single host-network pod with IP `ip`
whose internal-hostname annotation splits to `[h1]` and whose kops internal-hostname
annotation splits to `[h2]` (and which has neither hostname annotation) gives, when
`h1 = h2`, exactly one endpoint `(h1, type of ip)` with targets `[ip, ip]`, and when
`h1 ≠ h2`, exactly the two endpoints `(h1, type of ip)` and `(h2, type of ip)`, each
with targets `[ip]`. -/
theorem kops_and_primary_keys_both_honoured (d : Deps) (ps : podSource) (pod : Pod)
    (v1 v2 h1 h2 : String) (hc : ps.compatibility = "kops-dns-controller")
    (hn : pod.HostNetwork = true)
    (hi : pod.Annotations.lookup d.internalHostnameAnnotationKey = some v1)
    (hki : pod.Annotations.lookup d.kopsDNSControllerInternalHostnameAnnotationKey = some v2)
    (hs1 : d.splitHostnameAnnotation v1 = [h1]) (hs2 : d.splitHostnameAnnotation v2 = [h2])
    (hh : pod.Annotations.lookup d.hostnameAnnotationKey = none)
    (hkh : pod.Annotations.lookup d.kopsDNSControllerHostnameAnnotationKey = none) :
    (h1 = h2 →
        Endpoints d (ps.withPods [pod]) =
          .ok [⟨h1, d.suitableType pod.PodIP, [pod.PodIP, pod.PodIP]⟩]) ∧
      (h1 ≠ h2 →
        ∃ out, Endpoints d (ps.withPods [pod]) = .ok out ∧
          out.Perm [⟨h1, d.suitableType pod.PodIP, [pod.PodIP]⟩,
            ⟨h2, d.suitableType pod.PodIP, [pod.PodIP]⟩]) := by
  have hE : Endpoints d (ps.withPods [pod]) =
      .ok (toEndpoints (applyEmissions []
        [⟨h1, d.suitableType pod.PodIP, pod.PodIP⟩,
          ⟨h2, d.suitableType pod.PodIP, pod.PodIP⟩])) := by
    rw [Endpoints_withPods, collect_singleton,
      podEmissions_internal_both d ps pod v1 v2 hc hn hi hki hh hkh]
    simp [podIPEmissions, hs1, hs2, Except.map]
  constructor
  · intro h12
    subst h12
    rw [hE]
    simp [applyEmissions, addToEndpointMap, EndpointMap.get?, EndpointMap.store,
      EndpointMap.index, toEndpoints, NewEndpoint]
  · intro h12
    refine ⟨_, hE, ?_⟩
    have hk : ¬ (⟨h1, d.suitableType pod.PodIP⟩ : endpointKey) =
        ⟨h2, d.suitableType pod.PodIP⟩ := by
      intro c
      injection c with c1 _
      exact h12 c1
    simp [applyEmissions, addToEndpointMap, EndpointMap.get?, EndpointMap.store,
      EndpointMap.index, toEndpoints, NewEndpoint, hk, h12]

/-- Witness of C6: one pod whose two annotations name the same host, one whose two
annotations name different hosts. -/
theorem kops_and_primary_keys_both_honoured_witness :
    Endpoints specDeps (kopsSource.withPods [bothSamePod]) =
        .ok [⟨"db.example.com", "A", ["10.0.0.5", "10.0.0.5"]⟩] ∧
      ∃ out, Endpoints specDeps (kopsSource.withPods [bothApartPod]) = .ok out ∧
        out.Perm [⟨"db.example.com", "A", ["10.0.0.5"]⟩,
          ⟨"old.example.com", "A", ["10.0.0.5"]⟩] :=
  ⟨(kops_and_primary_keys_both_honoured specDeps kopsSource bothSamePod "db.example.com"
      "db.example.com" "db.example.com" "db.example.com" (by decide) (by decide)
      (by decide) (by decide) (by decide) (by decide) (by decide) (by decide)).1 rfl,
    (kops_and_primary_keys_both_honoured specDeps kopsSource bothApartPod "db.example.com"
      "old.example.com" "db.example.com" "old.example.com" (by decide) (by decide)
      (by decide) (by decide) (by decide) (by decide) (by decide) (by decide)).2
      (by decide)⟩

/-! ## A node that is not found -/

theorem collect_error_of_mem {α : Type} (g : α → Except Failure (List Emission))
    (hg : ∀ x f, g x = .error f → f = .nilDereference) (xs : List α) (x : α) (hx : x ∈ xs)
    (f : Failure) (hf : g x = .error f) : collect g xs = .error .nilDereference := by
  induction xs with
  | nil => cases hx
  | cons y rest ih =>
    cases hy : g y with
    | error f' =>
      have := hg y f' hy
      subst this
      simp [collect, hy]
    | ok es =>
      have hxr : x ∈ rest := by
        rcases List.mem_cons.mp hx with h | h
        · subst h
          rw [hf] at hy
          cases hy
        · exact h
      simp [collect, hy, ih hxr]

theorem domainEmissions_error (d : Deps) (ps : podSource) (pod : Pod) (domain : String)
    (f : Failure) (h : domainEmissions d ps pod domain = .error f) : f = .nilDereference := by
  unfold domainEmissions at h
  cases hnode : ps.nodeInformer pod.NodeName with
  | none =>
    rw [hnode] at h
    injection h with h
    exact h.symm
  | some node =>
    rw [hnode] at h
    cases h

theorem collect_error {α : Type} (g : α → Except Failure (List Emission))
    (hg : ∀ x f, g x = .error f → f = .nilDereference) (xs : List α) (f : Failure)
    (h : collect g xs = .error f) : f = .nilDereference := by
  induction xs generalizing f with
  | nil => cases h
  | cons y rest ih =>
    cases hy : g y with
    | error f' =>
      simp only [collect, hy] at h
      injection h with h
      rw [← h]
      exact hg y f' hy
    | ok es =>
      cases hr : collect g rest with
      | error f' =>
        simp only [collect, hy, hr] at h
        injection h with h
        rw [← h]
        exact ih f' hr
      | ok es' =>
        simp only [collect, hy, hr] at h
        cases h

theorem hostnameEmissions_error (d : Deps) (ps : podSource) (key : String) (pod : Pod)
    (f : Failure) (h : hostnameEmissions d ps key pod = .error f) : f = .nilDereference := by
  unfold hostnameEmissions at h
  cases hl : pod.Annotations.lookup key with
  | none =>
    rw [hl] at h
    cases h
  | some v =>
    rw [hl] at h
    exact collect_error _ (domainEmissions_error d ps pod) _ f h

theorem podEmissions_error (d : Deps) (ps : podSource) (pod : Pod) (f : Failure)
    (h : podEmissions d ps pod = .error f) : f = .nilDereference := by
  unfold podEmissions at h
  by_cases hn : pod.HostNetwork = true
  · simp only [hn, Bool.not_true, Bool.false_eq_true, if_false] at h
    cases h2 : hostnameEmissions d ps d.hostnameAnnotationKey pod with
    | error f' =>
      rw [h2] at h
      injection h with h
      rw [← h]
      exact hostnameEmissions_error d ps _ pod f' h2
    | ok e2 =>
      rw [h2] at h
      by_cases hc : ps.compatibility = "kops-dns-controller"
      · simp only [hc, if_true] at h
        cases h4 : hostnameEmissions d ps d.kopsDNSControllerHostnameAnnotationKey pod with
        | error f' =>
          rw [h4] at h
          injection h with h
          rw [← h]
          exact hostnameEmissions_error d ps _ pod f' h4
        | ok e4 =>
          rw [h4] at h
          cases h
      · simp only [hc, if_false] at h
        cases h
  · have hn' : pod.HostNetwork = false := by simpa using hn
    simp [hn'] at h

/-- The fault of C7 in general: a host-network pod anywhere in the list whose hostname
annotation splits to at least one hostname and whose node is not found makes the call
end in the nil dereference. -/
theorem endpoints_fault_of_missing_node (d : Deps) (ps : podSource) (pods : List Pod)
    (pod : Pod) (value : String) (hp : pod ∈ pods) (hn : pod.HostNetwork = true)
    (hh : pod.Annotations.lookup d.hostnameAnnotationKey = some value)
    (hs : d.splitHostnameAnnotation value ≠ [])
    (hnode : ps.nodeInformer pod.NodeName = none) :
    Endpoints d (ps.withPods pods) = .error .nilDereference := by
  have h2 : hostnameEmissions d ps d.hostnameAnnotationKey pod = .error .nilDereference := by
    simp only [hostnameEmissions, hh]
    cases hl : d.splitHostnameAnnotation value with
    | nil => exact absurd hl hs
    | cons domain rest => simp [collect, domainEmissions, hnode]
  have hpod : podEmissions d ps pod = .error .nilDereference := by
    simp [podEmissions, hn, h2]
  rw [Endpoints_withPods,
    collect_error_of_mem _ (podEmissions_error d ps) pods pod hp _ hpod]
  rfl

/-- C7 (the code at the failing input): one host-network pod with the hostname
annotation "svc.example.com" on the node "gone", which the node lister does not find;
the call ends in the dereference of the nil node instead of returning. -/
theorem endpoints_missing_node_nil_dereference :
    edgeSource.nodeInformer orphanPod.NodeName = none ∧
      Endpoints specDeps (edgeSource.withPods [orphanPod]) = .error .nilDereference := by
  decide

/-! ## A failed pod listing -/

/-- C8: when listing the pods fails with the error `e`, `Endpoints` returns `e` and no
endpoint list, whatever the node lister is. -/
theorem endpoints_list_error (d : Deps) (ps : podSource) (e : Error)
    (h : ps.podInformer ps.«namespace» = .error e) (nodes : String → Option Node) :
    Endpoints d { ps with nodeInformer := nodes } = .error (.listError e) := by
  unfold Endpoints
  simp only [h]

/-- Witness of C8: a source whose listing fails, with a node lister that finds
nothing. -/
theorem endpoints_list_error_witness :
    failingSource.podInformer failingSource.«namespace» = .error "cache unavailable" ∧
      Endpoints specDeps { failingSource with nodeInformer := fun _ => none } =
        .error (.listError "cache unavailable") :=
  ⟨by decide, endpoints_list_error specDeps failingSource "cache unavailable" (by decide)
    (fun _ => none)⟩

/-! ## The end-to-end scenarios of the spec -/

/-- C9: one host-network pod with IP 192.0.2.10 whose only annotation is
internal-hostname = "a.example.com, b.example.com" gives, for every compatibility value
and node lister, exactly the two endpoints (a.example.com, A) and (b.example.com, A),
each with the targets [192.0.2.10]. -/
theorem scenario_internal_hostname_two_names (ps : podSource) (name nodeName : String) :
    ∃ out, Endpoints specDeps (ps.withPods [scenarioOnePod name nodeName]) = .ok out ∧
      out.Perm [⟨"a.example.com", "A", ["192.0.2.10"]⟩,
        ⟨"b.example.com", "A", ["192.0.2.10"]⟩] := by
  refine ⟨[⟨"a.example.com", "A", ["192.0.2.10"]⟩, ⟨"b.example.com", "A", ["192.0.2.10"]⟩],
    ?_, List.Perm.refl _⟩
  have hsplit : splitHostnameAnnotation "a.example.com, b.example.com" =
      ["a.example.com", "b.example.com"] := by decide
  have htype : suitableType "192.0.2.10" = "A" := by decide
  have hi : List.lookup specDeps.internalHostnameAnnotationKey
      [(internalHostnameAnnotationKey, "a.example.com, b.example.com")] =
      some "a.example.com, b.example.com" := by decide
  have hh : List.lookup specDeps.hostnameAnnotationKey
      [(internalHostnameAnnotationKey, "a.example.com, b.example.com")] = none := by decide
  have hki : List.lookup specDeps.kopsDNSControllerInternalHostnameAnnotationKey
      [(internalHostnameAnnotationKey, "a.example.com, b.example.com")] = none := by decide
  have hkh : List.lookup specDeps.kopsDNSControllerHostnameAnnotationKey
      [(internalHostnameAnnotationKey, "a.example.com, b.example.com")] = none := by decide
  rw [Endpoints_withPods, collect_singleton,
    podEmissions_internal_only specDeps ps (scenarioOnePod name nodeName)
      "a.example.com, b.example.com" rfl hi hh hki hkh]
  have hem : podIPEmissions specDeps (scenarioOnePod name nodeName)
      (specDeps.splitHostnameAnnotation "a.example.com, b.example.com") =
      [⟨"a.example.com", "A", "192.0.2.10"⟩, ⟨"b.example.com", "A", "192.0.2.10"⟩] := by
    show podIPEmissions specDeps (scenarioOnePod name nodeName)
      ( splitHostnameAnnotation "a.example.com, b.example.com") = _
    rw [hsplit]
    show [(⟨"a.example.com", suitableType "192.0.2.10", "192.0.2.10"⟩ : Emission),
      ⟨"b.example.com", suitableType "192.0.2.10", "192.0.2.10"⟩] = _
    rw [htype]
  rw [hem]
  decide

/-- C10: one host-network pod whose only annotation is hostname = "svc.example.com", on
a node that advertises the ExternalIP address 203.0.113.5 and the InternalIP address
2001:db8::5, in either order, gives exactly the two endpoints (svc.example.com, A) with the targets
[203.0.113.5] and (svc.example.com, AAAA) with the targets [2001:db8::5]. -/
theorem scenario_hostname_dual_stack (ps : podSource) (name nodeName podIP : String)
    (node : Node) (hnode : ps.nodeInformer nodeName = some node)
    (haddr : node.Addresses =
        [{ type := NodeExternalIP, Address := "203.0.113.5" },
         { type := NodeInternalIP, Address := "2001:db8::5" }] ∨
      node.Addresses =
        [{ type := NodeInternalIP, Address := "2001:db8::5" },
         { type := NodeExternalIP, Address := "203.0.113.5" }]) :
    ∃ out, Endpoints specDeps (ps.withPods [scenarioTwoPod name nodeName podIP]) = .ok out ∧
      out.Perm [⟨"svc.example.com", "A", ["203.0.113.5"]⟩,
        ⟨"svc.example.com", "AAAA", ["2001:db8::5"]⟩] := by
  have hi : List.lookup specDeps.internalHostnameAnnotationKey
      [(hostnameAnnotationKey, "svc.example.com")] = none := by decide
  have hh : List.lookup specDeps.hostnameAnnotationKey
      [(hostnameAnnotationKey, "svc.example.com")] = some "svc.example.com" := by decide
  have hki : List.lookup specDeps.kopsDNSControllerInternalHostnameAnnotationKey
      [(hostnameAnnotationKey, "svc.example.com")] = none := by decide
  have hkh : List.lookup specDeps.kopsDNSControllerHostnameAnnotationKey
      [(hostnameAnnotationKey, "svc.example.com")] = none := by decide
  rw [Endpoints_withPods, collect_singleton,
    podEmissions_hostname_only specDeps ps (scenarioTwoPod name nodeName podIP)
      "svc.example.com" node rfl hi hh hki hkh hnode]
  rcases haddr with haddr | haddr
  · refine ⟨[⟨"svc.example.com", "A", ["203.0.113.5"]⟩,
      ⟨"svc.example.com", "AAAA", ["2001:db8::5"]⟩], ?_, List.Perm.refl _⟩
    rw [haddr]
    decide
  · refine ⟨[⟨"svc.example.com", "AAAA", ["2001:db8::5"]⟩,
      ⟨"svc.example.com", "A", ["203.0.113.5"]⟩], ?_, List.Perm.swap _ _ _⟩
    rw [haddr]
    decide

/-- Witness of C10: the node `edgeNode` and a pod scheduled on it. -/
theorem scenario_hostname_dual_stack_witness :
    ∃ out, Endpoints specDeps (edgeSource.withPods [scenarioTwoPod "svc" "node-1" "192.0.2.10"])
        = .ok out ∧
      out.Perm [⟨"svc.example.com", "A", ["203.0.113.5"]⟩,
        ⟨"svc.example.com", "AAAA", ["2001:db8::5"]⟩] :=
  scenario_hostname_dual_stack edgeSource "svc" "node-1" "192.0.2.10" edgeNode (by decide)
    (Or.inl (by decide))

/-! ## The frame of `addToEndpointMap` -/

theorem mem_keys_addToEndpointMap (m : EndpointMap) (domain recordType address : String)
    (k : endpointKey) :
    k ∈ (addToEndpointMap m domain recordType address).keys ↔
      k ∈ m.keys ∨ k = ⟨domain, recordType⟩ := by
  rw [keys_addToEndpointMap]
  by_cases hm : (⟨domain, recordType⟩ : endpointKey) ∈ m.keys
  · simp only [hm, if_true]
    constructor
    · exact Or.inl
    · rintro (h | h)
      · exact h
      · exact h ▸ hm
  · simp [hm]

/-- C18: `addToEndpointMap(m, domain, recordType, address)` changes only the entry of the
key `(domain, recordType)`: afterwards that key reads its previous target list (the empty
list if the key was absent) with `address` appended at the end, every other key reads
exactly what it read before (present with the same list, or absent), and the keys are
the old ones and that one. -/
theorem addToEndpointMap_frame (m : EndpointMap) (domain recordType address : String) :
    (addToEndpointMap m domain recordType address).get? ⟨domain, recordType⟩ =
        some (m.index ⟨domain, recordType⟩ ++ [address]) ∧
      (∀ k, k ≠ ⟨domain, recordType⟩ →
        (addToEndpointMap m domain recordType address).get? k = m.get? k) ∧
      ∀ k, k ∈ (addToEndpointMap m domain recordType address).keys ↔
        k ∈ m.keys ∨ k = ⟨domain, recordType⟩ := by
  refine ⟨?_, fun k hk => ?_, mem_keys_addToEndpointMap m domain recordType address⟩
  · rw [addToEndpointMap_eq_store, EndpointMap.get?_store_self]
  · rw [addToEndpointMap_eq_store, EndpointMap.get?_store_other m _ hk]

/-- Witness of C18: an address added under a key of a two-key map, read back under that
key and under the other key. -/
theorem addToEndpointMap_frame_witness :
    (addToEndpointMap twoKeyMap "a.example.com" "A" "192.0.2.3").get? ⟨"a.example.com", "A"⟩ =
        some (twoKeyMap.index ⟨"a.example.com", "A"⟩ ++ ["192.0.2.3"]) ∧
      (⟨"b.example.com", "A"⟩ : endpointKey) ≠ ⟨"a.example.com", "A"⟩ ∧
      (addToEndpointMap twoKeyMap "a.example.com" "A" "192.0.2.3").get? ⟨"b.example.com", "A"⟩ =
        twoKeyMap.get? ⟨"b.example.com", "A"⟩ :=
  ⟨(addToEndpointMap_frame twoKeyMap "a.example.com" "A" "192.0.2.3").1, by decide,
    (addToEndpointMap_frame twoKeyMap "a.example.com" "A" "192.0.2.3").2.1 _ (by decide)⟩

/-! ## Invariants of the map entries -/

theorem mem_store (m : EndpointMap) (k : endpointKey) (v : List String)
    (entry : endpointKey × List String) (h : entry ∈ m.store k v) :
    entry ∈ m ∨ entry = (k, v) := by
  induction m with
  | nil =>
    simp only [EndpointMap.store, List.mem_singleton] at h
    exact Or.inr h
  | cons e rest ih =>
    obtain ⟨k', w⟩ := e
    by_cases hk : k' = k
    · subst hk
      simp only [EndpointMap.store, if_true, List.mem_cons] at h
      rcases h with h | h
      · exact Or.inr h
      · exact Or.inl (List.mem_cons_of_mem _ h)
    · simp only [EndpointMap.store, hk, if_false, List.mem_cons] at h
      rcases h with h | h
      · exact Or.inl (h ▸ List.mem_cons_self _ _)
      · rcases ih h with h' | h'
        · exact Or.inl (List.mem_cons_of_mem _ h')
        · exact Or.inr h'

theorem mem_of_mem_index (m : EndpointMap) (k : endpointKey) (a : String)
    (h : a ∈ m.index k) : ∃ v, (k, v) ∈ m ∧ a ∈ v := by
  induction m with
  | nil => simp [EndpointMap.index, EndpointMap.get?] at h
  | cons e rest ih =>
    obtain ⟨k', w⟩ := e
    by_cases hk : k' = k
    · subst hk
      simp only [EndpointMap.index, EndpointMap.get?, if_true, Option.getD_some] at h
      exact ⟨w, List.mem_cons_self _ _, h⟩
    · have h' : a ∈ EndpointMap.index rest k := by
        simpa [EndpointMap.index, EndpointMap.get?, hk] using h
      obtain ⟨v, hv, hav⟩ := ih h'
      exact ⟨v, List.mem_cons_of_mem _ hv, hav⟩

theorem mem_addToEndpointMap (m : EndpointMap) (domain recordType address : String)
    (entry : endpointKey × List String)
    (h : entry ∈ addToEndpointMap m domain recordType address) :
    entry ∈ m ∨
      entry = (⟨domain, recordType⟩, m.index ⟨domain, recordType⟩ ++ [address]) := by
  rw [addToEndpointMap_eq_store] at h
  exact mem_store m _ _ entry h

/-- Replaying calls keeps every target list non-empty. -/
theorem targets_ne_nil_applyEmissions (es : List Emission) (m : EndpointMap)
    (hm : ∀ entry ∈ m, entry.2 ≠ []) : ∀ entry ∈ applyEmissions m es, entry.2 ≠ [] := by
  induction es generalizing m with
  | nil => simpa [applyEmissions] using hm
  | cons e rest ih =>
    refine ih (addToEndpointMap m e.domain e.recordType e.address) ?_
    intro entry hentry
    rcases mem_addToEndpointMap m _ _ _ entry hentry with h | h
    · exact hm entry h
    · rw [h]
      simp

/-- Replaying calls keeps a property that relates every target to its key, when the
calls have it. -/
theorem forall_targets_applyEmissions (Q : endpointKey → String → Prop) (es : List Emission)
    (m : EndpointMap) (hm : ∀ entry ∈ m, ∀ a ∈ entry.2, Q entry.1 a)
    (hes : ∀ e ∈ es, Q e.key e.address) :
    ∀ entry ∈ applyEmissions m es, ∀ a ∈ entry.2, Q entry.1 a := by
  induction es generalizing m with
  | nil => simpa [applyEmissions] using hm
  | cons e rest ih =>
    refine ih (addToEndpointMap m e.domain e.recordType e.address) ?_
      (fun e' he' => hes e' (List.mem_cons_of_mem _ he'))
    intro entry hentry a ha
    rcases mem_addToEndpointMap m _ _ _ entry hentry with h | h
    · exact hm entry h a ha
    · rw [h] at ha ⊢
      rcases List.mem_append.mp ha with h1 | h1
      · obtain ⟨v, hv, hav⟩ := mem_of_mem_index m _ a h1
        exact hm _ hv a hav
      · rw [List.mem_singleton.mp h1]
        exact hes e (List.mem_cons_self _ _)

/-- A successful call read back: the listed pods, the calls they make, and the result
as the replay of those calls. -/
theorem Endpoints_ok (d : Deps) (ps : podSource) (out : List Endpoint)
    (h : Endpoints d ps = .ok out) :
    ∃ pods es, ps.podInformer ps.«namespace» = .ok pods ∧
      collect (podEmissions d ps) pods = .ok es ∧
      out = toEndpoints (applyEmissions [] es) := by
  unfold Endpoints at h
  cases hl : ps.podInformer ps.«namespace» with
  | error e => simp [hl] at h
  | ok pods =>
    simp only [hl] at h
    rw [buildEndpointMap_eq] at h
    cases hc : collect (podEmissions d ps) pods with
    | error f =>
      rw [hc] at h
      cases h
    | ok es =>
      rw [hc] at h
      have hout : toEndpoints (applyEmissions [] es) = out := by
        injection h
      exact ⟨pods, es, rfl, hc, hout.symm⟩

theorem mem_toEndpoints (m : EndpointMap) (e : Endpoint) (h : e ∈ toEndpoints m) :
    ∃ entry ∈ m, e = ⟨entry.1.dnsName, entry.1.recordType, entry.2⟩ := by
  simp only [toEndpoints, List.mem_map, NewEndpoint] at h
  obtain ⟨entry, hentry, he⟩ := h
  exact ⟨entry, hentry, he.symm⟩

/-! ## No endpoint without a target -/

/-- C11: whenever `Endpoints` succeeds, every returned endpoint has a non-empty target
list; a key is never emitted with zero targets. -/
theorem endpoints_targets_nonempty (d : Deps) (ps : podSource) (out : List Endpoint)
    (h : Endpoints d ps = .ok out) : ∀ e ∈ out, e.Targets ≠ [] := by
  obtain ⟨pods, es, _, _, hout⟩ := Endpoints_ok d ps out h
  intro e he
  rw [hout] at he
  obtain ⟨entry, hentry, rfl⟩ := mem_toEndpoints _ e he
  exact targets_ne_nil_applyEmissions es [] (by simp) entry hentry

/-- Witness of C11: a pod whose node has no eligible address for the hostname
out.example.com; the only endpoint is the one of the internal hostname, with a
target. -/
theorem endpoints_targets_nonempty_witness :
    Endpoints specDeps (innerSource.withPods [mixedPod]) =
        .ok [⟨"in.example.com", "A", ["10.0.0.5"]⟩] ∧
      ∀ e ∈ [(⟨"in.example.com", "A", ["10.0.0.5"]⟩ : Endpoint)], e.Targets ≠ [] :=
  ⟨by decide, endpoints_targets_nonempty specDeps (innerSource.withPods [mixedPod]) _
    (by decide)⟩

/-! ## What the calls have in common -/

theorem collect_forall {α : Type} (g : α → Except Failure (List Emission))
    (P : Emission → Prop) (xs : List α)
    (hg : ∀ x ∈ xs, ∀ es, g x = .ok es → ∀ e ∈ es, P e) (es : List Emission)
    (h : collect g xs = .ok es) : ∀ e ∈ es, P e := by
  induction xs generalizing es with
  | nil =>
    simp only [collect] at h
    injection h with h
    subst h
    simp
  | cons x rest ih =>
    cases hx : g x with
    | error f => simp [collect, hx] at h
    | ok ex =>
      cases hr : collect g rest with
      | error f => simp [collect, hx, hr] at h
      | ok er =>
        simp only [collect, hx, hr] at h
        injection h with h
        subst h
        intro e he
        rcases List.mem_append.mp he with h1 | h1
        · exact hg x (List.mem_cons_self _ _) ex hx e h1
        · exact ih (fun y hy => hg y (List.mem_cons_of_mem _ hy)) er hr e h1

theorem fromAnnotation_podIPEmissions (d : Deps) (pod : Pod) (value : String) :
    ∀ e ∈ podIPEmissions d pod (d.splitHostnameAnnotation value), e.fromAnnotation d := by
  intro e he
  simp only [podIPEmissions, List.mem_map] at he
  obtain ⟨domain, hdomain, rfl⟩ := he
  exact ⟨rfl, value, hdomain⟩

theorem fromAnnotation_internalHostnameEmissions (d : Deps) (key : String) (pod : Pod) :
    ∀ e ∈ internalHostnameEmissions d key pod, e.fromAnnotation d := by
  unfold internalHostnameEmissions
  cases pod.Annotations.lookup key with
  | none => simp
  | some value => exact fromAnnotation_podIPEmissions d pod value

theorem fromAnnotation_hostnameEmissions (d : Deps) (ps : podSource) (key : String)
    (pod : Pod) (es : List Emission) (h : hostnameEmissions d ps key pod = .ok es) :
    ∀ e ∈ es, e.fromAnnotation d := by
  unfold hostnameEmissions at h
  cases hl : pod.Annotations.lookup key with
  | none =>
    rw [hl] at h
    injection h with h
    subst h
    simp
  | some value =>
    rw [hl] at h
    refine collect_forall (domainEmissions d ps pod) _ _ ?_ es h
    intro domain hdomain es' hes' e he
    unfold domainEmissions at hes'
    cases hnode : ps.nodeInformer pod.NodeName with
    | none => simp [hnode] at hes'
    | some node =>
      rw [hnode] at hes'
      injection hes' with hes'
      subst hes'
      simp only [nodeEmissions, List.mem_map] at he
      obtain ⟨a, _, rfl⟩ := he
      exact ⟨rfl, value, hdomain⟩

theorem fromAnnotation_podEmissions (d : Deps) (ps : podSource) (pod : Pod)
    (es : List Emission) (h : podEmissions d ps pod = .ok es) :
    ∀ e ∈ es, e.fromAnnotation d := by
  unfold podEmissions at h
  by_cases hn : pod.HostNetwork = true
  · simp only [hn, Bool.not_true, Bool.false_eq_true, if_false] at h
    cases h2 : hostnameEmissions d ps d.hostnameAnnotationKey pod with
    | error f => simp [h2] at h
    | ok e2 =>
      rw [h2] at h
      have p1 := fromAnnotation_internalHostnameEmissions d d.internalHostnameAnnotationKey pod
      have p2 := fromAnnotation_hostnameEmissions d ps _ pod e2 h2
      by_cases hc : ps.compatibility = "kops-dns-controller"
      · simp only [hc, if_true] at h
        cases h4 : hostnameEmissions d ps d.kopsDNSControllerHostnameAnnotationKey pod with
        | error f => simp [h4] at h
        | ok e4 =>
          rw [h4] at h
          have p3 := fromAnnotation_internalHostnameEmissions d
            d.kopsDNSControllerInternalHostnameAnnotationKey pod
          have p4 := fromAnnotation_hostnameEmissions d ps _ pod e4 h4
          injection h with h
          subst h
          intro e he
          simp only [List.mem_append] at he
          rcases he with ((he | he) | he) | he
          · exact p1 e he
          · exact p2 e he
          · exact p3 e he
          · exact p4 e he
      · simp only [hc, if_false] at h
        injection h with h
        subst h
        intro e he
        rcases List.mem_append.mp he with he | he
        · exact p1 e he
        · exact p2 e he
  · have hn' : pod.HostNetwork = false := by simpa using hn
    simp only [hn', Bool.not_false, if_true] at h
    injection h with h
    subst h
    simp

theorem fromAnnotation_collect (d : Deps) (ps : podSource) (pods : List Pod)
    (es : List Emission) (h : collect (podEmissions d ps) pods = .ok es) :
    ∀ e ∈ es, e.fromAnnotation d :=
  collect_forall (podEmissions d ps) _ pods
    (fun pod _ es' hes' => fromAnnotation_podEmissions d ps pod es' hes') es h

/-! ## Every target under its own record type -/

/-- C14: whenever `Endpoints` succeeds, every target of every returned endpoint is
classified to that endpoint's record type: if the endpoint `(name, rt)` has the target
`a`, then `suitableType a = rt`. -/
theorem endpoints_targets_match_record_type (d : Deps) (ps : podSource)
    (out : List Endpoint) (h : Endpoints d ps = .ok out) :
    ∀ e ∈ out, ∀ a ∈ e.Targets, d.suitableType a = e.RecordType := by
  obtain ⟨pods, es, _, hes, hout⟩ := Endpoints_ok d ps out h
  intro e he a ha
  rw [hout] at he
  obtain ⟨entry, hentry, rfl⟩ := mem_toEndpoints _ e he
  exact forall_targets_applyEmissions (fun k a => d.suitableType a = k.recordType) es []
    (by simp) (fun e' he' => ((fromAnnotation_collect d ps pods es hes e' he').1).symm)
    entry hentry a ha

/-- Witness of C14: the dual-stack node, whose two addresses are filed under A and
AAAA. -/
theorem endpoints_targets_match_record_type_witness :
    Endpoints specDeps (edgeSource.withPods [svcPod]) =
        .ok [⟨"svc.example.com", "A", ["203.0.113.5"]⟩,
          ⟨"svc.example.com", "AAAA", ["2001:db8::5"]⟩] ∧
      ∀ e ∈ [(⟨"svc.example.com", "A", ["203.0.113.5"]⟩ : Endpoint),
          ⟨"svc.example.com", "AAAA", ["2001:db8::5"]⟩],
        ∀ a ∈ e.Targets, specDeps.suitableType a = e.RecordType :=
  ⟨by decide, endpoints_targets_match_record_type specDeps (edgeSource.withPods [svcPod]) _
    (by decide)⟩

/-! ## Empty and blank segments of an annotation -/

/-- The split modelled from the spec never yields the empty hostname. -/
theorem empty_not_mem_splitHostnameAnnotation (value : String) :
    "" ∉ splitHostnameAnnotation value := by
  intro h
  simp only [ splitHostnameAnnotation, List.mem_map, List.mem_filter] at h
  obtain ⟨seg, ⟨_, hne⟩, hseg⟩ := h
  have hnil : seg = [] := by
    have : (String.mk seg).data = ("" : String).data := by rw [hseg]
    simpa using this
  subst hnil
  simp at hne

theorem mem_applyEmissions_key (es : List Emission) (entry : endpointKey × List String)
    (h : entry ∈ applyEmissions [] es) : ∃ e ∈ es, e.key = entry.1 := by
  have hk : entry.1 ∈ (applyEmissions [] es).keys := List.mem_map_of_mem Prod.fst h
  rw [mem_keys_applyEmissions] at hk
  rcases hk with hk | hk
  · simp [EndpointMap.keys] at hk
  · simpa using hk

theorem head?_dropWhile_isSpace (cs : List Char) (c : Char)
    (h : (cs.dropWhile isSpace).head? = some c) : isSpace c = false := by
  have := List.head?_dropWhile_not isSpace cs
  rw [h] at this
  exact this

theorem getLast?_dropWhile (p : Char → Bool) (cs : List Char) (c : Char)
    (h : (cs.dropWhile p).getLast? = some c) : cs.getLast? = some c := by
  obtain ⟨pre, hpre⟩ := List.dropWhile_suffix (l := cs) p
  cases hd : cs.dropWhile p with
  | nil => simp [hd] at h
  | cons x rest =>
    rw [hd] at h hpre
    rw [← hpre, List.getLast?_append_of_ne_nil _ (List.cons_ne_nil x rest)]
    exact h

/-- Trimming leaves nothing exactly when the segment is blank. -/
theorem trimSpace_eq_nil_iff (seg : List Char) :
    trimSpace seg = [] ↔ blankSegment seg = true := by
  unfold trimSpace blankSegment
  rw [List.reverse_eq_nil_iff, List.dropWhile_eq_nil_iff, List.all_eq_true]
  constructor
  · intro h
    have hnil : seg.dropWhile isSpace = [] := by
      cases hd : seg.dropWhile isSpace with
      | nil => rfl
      | cons x rest =>
        have hx : isSpace x = false := head?_dropWhile_isSpace seg x (by rw [hd]; rfl)
        have hx' : isSpace x = true := h x (by rw [hd]; simp)
        rw [hx] at hx'
        cases hx'
    exact List.dropWhile_eq_nil_iff.mp hnil
  · intro h x hx
    have hnil : seg.dropWhile isSpace = [] := List.dropWhile_eq_nil_iff.mpr h
    rw [hnil] at hx
    simp at hx

/-- A trimmed segment does not begin with whitespace. -/
theorem head?_trimSpace (seg : List Char) (c : Char) (h : (trimSpace seg).head? = some c) :
    isSpace c = false := by
  unfold trimSpace at h
  rw [List.head?_reverse] at h
  have h' := getLast?_dropWhile isSpace _ c h
  rw [List.getLast?_reverse] at h'
  exact head?_dropWhile_isSpace seg c h'

/-- A trimmed segment does not end with whitespace. -/
theorem getLast?_trimSpace (seg : List Char) (c : Char)
    (h : (trimSpace seg).getLast? = some c) : isSpace c = false := by
  unfold trimSpace at h
  rw [List.getLast?_reverse] at h
  exact head?_dropWhile_isSpace _ c h

/-- The hostnames of a value are its segments that are not blank, each trimmed, in
order. -/
theorem splitHostnameAnnotation_eq (value : String) :
    splitHostnameAnnotation value =
      (solidSegments value).map fun seg => String.mk (trimSpace seg) := by
  unfold splitHostnameAnnotation solidSegments
  rw [List.filter_map, List.map_map]
  congr 1
  apply List.filter_congr
  intro seg _
  cases hb : blankSegment seg with
  | true => simp [(trimSpace_eq_nil_iff seg).mpr hb]
  | false =>
    have hne : trimSpace seg ≠ [] := by
      intro hnil
      rw [(trimSpace_eq_nil_iff seg).mp hnil] at hb
      cases hb
    cases ht : trimSpace seg with
    | nil => exact absurd ht hne
    | cons x rest => simp [ht]

theorem splitHostnameAnnotation_congr (a b : String) (h : solidSegments a = solidSegments b) :
    specDeps.splitHostnameAnnotation a = specDeps.splitHostnameAnnotation b := by
  show splitHostnameAnnotation a = splitHostnameAnnotation b
  rw [splitHostnameAnnotation_eq, splitHostnameAnnotation_eq, h]

theorem internalHostnameEmissions_congr_blank (key : String) (p p' : Pod)
    (h : sameButBlankSegments p p') :
    internalHostnameEmissions specDeps key p = internalHostnameEmissions specDeps key p' := by
  obtain ⟨_, _, hip, hl⟩ := h
  have hk := hl key
  unfold internalHostnameEmissions
  cases h1 : p.Annotations.lookup key with
  | none =>
    cases h2 : p'.Annotations.lookup key with
    | none => rfl
    | some b =>
      rw [h1, h2] at hk
      exact absurd hk (by simp [sameSolidSegments])
  | some a =>
    cases h2 : p'.Annotations.lookup key with
    | none =>
      rw [h1, h2] at hk
      exact absurd hk (by simp [sameSolidSegments])
    | some b =>
      rw [h1, h2] at hk
      simp only [podIPEmissions, hip, splitHostnameAnnotation_congr a b hk]

theorem hostnameEmissions_congr_blank (ps : podSource) (key : String) (p p' : Pod)
    (h : sameButBlankSegments p p') :
    hostnameEmissions specDeps ps key p = hostnameEmissions specDeps ps key p' := by
  obtain ⟨_, hnode, _, hl⟩ := h
  have hk := hl key
  have hdom : domainEmissions specDeps ps p = domainEmissions specDeps ps p' := by
    funext domain
    simp only [domainEmissions, hnode]
  unfold hostnameEmissions
  cases h1 : p.Annotations.lookup key with
  | none =>
    cases h2 : p'.Annotations.lookup key with
    | none => rfl
    | some b =>
      rw [h1, h2] at hk
      exact absurd hk (by simp [sameSolidSegments])
  | some a =>
    cases h2 : p'.Annotations.lookup key with
    | none =>
      rw [h1, h2] at hk
      exact absurd hk (by simp [sameSolidSegments])
    | some b =>
      rw [h1, h2] at hk
      simp only [hdom, splitHostnameAnnotation_congr a b hk]

theorem podEmissions_congr_blank (ps : podSource) (p p' : Pod)
    (h : sameButBlankSegments p p') :
    podEmissions specDeps ps p = podEmissions specDeps ps p' := by
  have hn : p.HostNetwork = p'.HostNetwork := h.1
  unfold podEmissions
  rw [hn, hostnameEmissions_congr_blank ps _ p p' h,
    hostnameEmissions_congr_blank ps specDeps.kopsDNSControllerHostnameAnnotationKey p p' h,
    internalHostnameEmissions_congr_blank _ p p' h,
    internalHostnameEmissions_congr_blank
      specDeps.kopsDNSControllerInternalHostnameAnnotationKey p p' h]

/-- C12: with the split of the spec, whatever the annotation values are, no endpoint
returned by `Endpoints` has the empty string as its DNS name, and none has a DNS name
that begins or ends with whitespace (so none is named by a whitespace-only segment); the
hostnames of a value are exactly its comma-separated segments that are not empty or
whitespace-only, each trimmed, in order; and two pod lists whose pods differ, position
by position, at most in the empty and whitespace-only segments of their annotation
values give the same result of `Endpoints`. -/
theorem endpoints_no_empty_dns_name (ps : podSource) :
    (∀ out, Endpoints specDeps ps = .ok out →
        ∀ e ∈ out, e.DNSName ≠ "" ∧
          (∀ c, e.DNSName.data.head? = some c → isSpace c = false) ∧
          ∀ c, e.DNSName.data.getLast? = some c → isSpace c = false) ∧
      (∀ value, splitHostnameAnnotation value =
        (solidSegments value).map fun seg => String.mk (trimSpace seg)) ∧
      ∀ pods pods', List.Forall₂ sameButBlankSegments pods pods' →
        Endpoints specDeps (ps.withPods pods) = Endpoints specDeps (ps.withPods pods') := by
  refine ⟨?_, splitHostnameAnnotation_eq, ?_⟩
  · intro out h e he
    obtain ⟨pods, es, _, hes, hout⟩ := Endpoints_ok specDeps ps out h
    rw [hout] at he
    obtain ⟨entry, hentry, rfl⟩ := mem_toEndpoints _ e he
    obtain ⟨e', he', hkey⟩ := mem_applyEmissions_key es entry hentry
    obtain ⟨_, value, hvalue⟩ := fromAnnotation_collect specDeps ps pods es hes e' he'
    have hdom : e'.domain = entry.1.dnsName := by
      have : e'.key.dnsName = entry.1.dnsName := by rw [hkey]
      exact this
    have hvalue' : entry.1.dnsName ∈ splitHostnameAnnotation value := hdom ▸ hvalue
    refine ⟨?_, ?_, ?_⟩
    · intro hname
      have hname' : entry.1.dnsName = "" := hname
      rw [hname'] at hvalue'
      exact empty_not_mem_splitHostnameAnnotation value hvalue'
    · intro c hc
      rw [splitHostnameAnnotation_eq] at hvalue'
      obtain ⟨seg, _, hseg⟩ := List.mem_map.mp hvalue'
      have hc' : entry.1.dnsName.data.head? = some c := hc
      rw [← hseg] at hc'
      exact head?_trimSpace seg c hc'
    · intro c hc
      rw [splitHostnameAnnotation_eq] at hvalue'
      obtain ⟨seg, _, hseg⟩ := List.mem_map.mp hvalue'
      have hc' : entry.1.dnsName.data.getLast? = some c := hc
      rw [← hseg] at hc'
      exact getLast?_trimSpace seg c hc'
  · intro pods pods' hrel
    rw [Endpoints_withPods, Endpoints_withPods,
      collect_congr (podEmissions specDeps ps) sameButBlankSegments
        (fun p p' hp => podEmissions_congr_blank ps p p' hp) pods pods' hrel]

theorem sameButBlankSegments_paddedPod_trimmedPod :
    sameButBlankSegments paddedPod trimmedPod := by
  refine ⟨rfl, rfl, rfl, fun key => ?_⟩
  by_cases hk : key = internalHostnameAnnotationKey
  · subst hk
    show solidSegments _ = solidSegments _
    decide
  · have hk' : (key == internalHostnameAnnotationKey) = false := by simpa using hk
    simp only [paddedPod, trimmedPod, List.lookup, hk', sameSolidSegments]

/-- Witness of C12: the annotation "a.example.com, ," gives the one endpoint of
a.example.com and the annotation "," gives none; an annotation with an empty segment and
segments of a space, a vertical tab and a no-break space around a.example.com gives what
the annotation "a.example.com" gives. -/
theorem endpoints_no_empty_dns_name_witness :
    Endpoints specDeps (edgeSource.withPods [raggedPod, commaPod]) =
        .ok [⟨"a.example.com", "A", ["10.0.0.5"]⟩] ∧
      Endpoints specDeps (edgeSource.withPods [commaPod]) = .ok [] ∧
      (∀ e ∈ [(⟨"a.example.com", "A", ["10.0.0.5"]⟩ : Endpoint)], e.DNSName ≠ "" ∧
        (∀ c, e.DNSName.data.head? = some c → isSpace c = false) ∧
        ∀ c, e.DNSName.data.getLast? = some c → isSpace c = false) ∧
      Endpoints specDeps (edgeSource.withPods [paddedPod]) =
        Endpoints specDeps (edgeSource.withPods [trimmedPod]) ∧
      Endpoints specDeps (edgeSource.withPods [paddedPod]) =
        .ok [⟨"a.example.com", "A", ["10.0.0.5"]⟩] :=
  ⟨by decide, by decide,
    (endpoints_no_empty_dns_name (edgeSource.withPods [raggedPod, commaPod])).1 _ (by decide),
    (endpoints_no_empty_dns_name edgeSource).2.2 [paddedPod] [trimmedPod]
      (List.Forall₂.cons sameButBlankSegments_paddedPod_trimmedPod List.Forall₂.nil),
    by decide⟩

/-! ## Addresses that are no IP literal -/

theorem suitableType_of_not_ipv6 (s : String) (h : isIPv6Text s.data = false) :
    suitableType s = RecordTypeA := by
  simp [suitableType, h]

/-- C13: with the classifier of the spec, a host-network pod whose IP string `s` is no
valid IP literal and whose only annotation, the internal hostname, splits to the single
hostname `h` gives the endpoint `(h, A)` with the targets `[s]`; and "10.0.0.5" is
classified A, "2001:db8::1" AAAA. -/
theorem endpoints_pass_non_ip_address (ps : podSource) (pod : Pod) (value h : String)
    (hn : pod.HostNetwork = true)
    (hi : pod.Annotations.lookup specDeps.internalHostnameAnnotationKey = some value)
    (hs : specDeps.splitHostnameAnnotation value = [h])
    (hh : pod.Annotations.lookup specDeps.hostnameAnnotationKey = none)
    (hki : pod.Annotations.lookup specDeps.kopsDNSControllerInternalHostnameAnnotationKey =
      none)
    (hkh : pod.Annotations.lookup specDeps.kopsDNSControllerHostnameAnnotationKey = none)
    (hip : isIPText pod.PodIP = false) :
    Endpoints specDeps (ps.withPods [pod]) = .ok [⟨h, RecordTypeA, [pod.PodIP]⟩] ∧
      suitableType "10.0.0.5" = RecordTypeA ∧ suitableType "2001:db8::1" = RecordTypeAAAA := by
  refine ⟨?_, by decide, by decide⟩
  have h6 : isIPv6Text pod.PodIP.data = false := by
    simp only [isIPText, Bool.or_eq_false_iff] at hip
    exact hip.2
  have ht : specDeps.suitableType pod.PodIP = RecordTypeA :=
    suitableType_of_not_ipv6 pod.PodIP h6
  rw [Endpoints_withPods, collect_singleton,
    podEmissions_internal_only specDeps ps pod value hn hi hh hki hkh]
  simp [podIPEmissions, hs, ht, applyEmissions, addToEndpointMap, EndpointMap.get?,
    EndpointMap.store, EndpointMap.index, toEndpoints, NewEndpoint, Except.map]

/-- Witness of C13: a pod that has no IP yet, so that its IP string is empty. -/
theorem endpoints_pass_non_ip_address_witness :
    isIPText pendingPod.PodIP = false ∧
      Endpoints specDeps (edgeSource.withPods [pendingPod]) =
        .ok [⟨"db.example.com", RecordTypeA, [""]⟩] ∧
      suitableType "10.0.0.5" = RecordTypeA ∧ suitableType "2001:db8::1" = RecordTypeAAAA :=
  ⟨by decide,
    endpoints_pass_non_ip_address edgeSource pendingPod "db.example.com" "db.example.com"
      (by decide) (by decide) (by decide) (by decide) (by decide) (by decide) (by decide)⟩

/-! ## Pod lists put together and reordered -/

theorem targetsFor_replay (es : List Emission) (dnsName recordType : String) :
    targetsFor (toEndpoints (applyEmissions [] es)) dnsName recordType =
      (es.filter fun e => decide (e.key = ⟨dnsName, recordType⟩)).map Emission.address := by
  rw [targetsFor_toEndpoints, index_applyEmissions]
  simp [EndpointMap.index, EndpointMap.get?]

theorem mem_key_replay (es : List Emission) (k : String × String) :
    k ∈ (toEndpoints (applyEmissions [] es)).map Endpoint.key ↔
      (⟨k.1, k.2⟩ : endpointKey) ∈ es.map Emission.key := by
  rw [map_key_toEndpoints]
  constructor
  · intro h
    obtain ⟨k', hk', rfl⟩ := List.mem_map.mp h
    rcases (mem_keys_applyEmissions es [] k').mp hk' with h' | h'
    · simp [EndpointMap.keys] at h'
    · exact h'
  · intro h
    exact List.mem_map.mpr
      ⟨⟨k.1, k.2⟩, (mem_keys_applyEmissions es [] _).mpr (Or.inr h), rfl⟩

theorem collect_ok_flatMap {α : Type} (g : α → Except Failure (List Emission)) (xs : List α)
    (es : List Emission) (h : collect g xs = .ok es) :
    (∀ x ∈ xs, g x = .ok (okEmissions (g x))) ∧ es = xs.flatMap fun x => okEmissions (g x) := by
  induction xs generalizing es with
  | nil =>
    simp only [collect] at h
    injection h with h
    subst h
    simp
  | cons x rest ih =>
    cases hx : g x with
    | error f => simp [collect, hx] at h
    | ok ex =>
      cases hr : collect g rest with
      | error f => simp [collect, hx, hr] at h
      | ok er =>
        simp only [collect, hx, hr] at h
        injection h with h
        subst h
        obtain ⟨h1, h2⟩ := ih er hr
        refine ⟨?_, ?_⟩
        · intro y hy
          rcases List.mem_cons.mp hy with rfl | hy'
          · rw [hx]
            rfl
          · exact h1 y hy'
        · rw [List.flatMap_cons, hx, ← h2]
          rfl

theorem collect_append_ok {α : Type} (g : α → Except Failure (List Emission))
    (xs ys : List α) (ex ey : List Emission) (hx : collect g xs = .ok ex)
    (hy : collect g ys = .ok ey) : collect g (xs ++ ys) = .ok (ex ++ ey) := by
  obtain ⟨hx1, hx2⟩ := collect_ok_flatMap g xs ex hx
  obtain ⟨hy1, hy2⟩ := collect_ok_flatMap g ys ey hy
  rw [collect_of_ok g (fun x => okEmissions (g x)) (xs ++ ys), List.flatMap_append, ← hx2,
    ← hy2]
  intro x hxy
  rcases List.mem_append.mp hxy with h | h
  · exact hx1 x h
  · exact hy1 x h

theorem collect_ok_of_append {α : Type} (g : α → Except Failure (List Emission))
    (xs ys : List α) (es : List Emission) (h : collect g (xs ++ ys) = .ok es) :
    (∃ ex, collect g xs = .ok ex) ∧ ∃ ey, collect g ys = .ok ey := by
  obtain ⟨h1, _⟩ := collect_ok_flatMap g (xs ++ ys) es h
  exact ⟨⟨_, collect_of_ok g _ xs fun x hx => h1 x (List.mem_append_left _ hx)⟩,
    ⟨_, collect_of_ok g _ ys fun y hy => h1 y (List.mem_append_right _ hy)⟩⟩

/-- A successful call on a given pod list read back as the replay of its calls. -/
theorem Endpoints_withPods_ok (d : Deps) (ps : podSource) (pods : List Pod)
    (out : List Endpoint) (h : Endpoints d (ps.withPods pods) = .ok out) :
    ∃ es, collect (podEmissions d ps) pods = .ok es ∧
      out = toEndpoints (applyEmissions [] es) := by
  rw [Endpoints_withPods] at h
  cases hc : collect (podEmissions d ps) pods with
  | error f =>
    rw [hc] at h
    cases h
  | ok es =>
    rw [hc] at h
    have hout : toEndpoints (applyEmissions [] es) = out := by
      injection h
    exact ⟨es, rfl, hout.symm⟩

theorem Endpoints_withPods_of_collect (d : Deps) (ps : podSource) (pods : List Pod)
    (es : List Emission) (h : collect (podEmissions d ps) pods = .ok es) :
    Endpoints d (ps.withPods pods) = .ok (toEndpoints (applyEmissions [] es)) := by
  rw [Endpoints_withPods, h]
  rfl

/-- C15: for pod lists `p1` and `p2` on which `Endpoints` succeeds (same node lister and
compatibility value), it succeeds on `p1 ++ p2`, and for every key (name, record type)
the target list on `p1 ++ p2` is the target list on `p1` followed by the target list on
`p2`, a key absent from a result counting as the empty list; and it succeeds on
`p1 ++ p2` only if it succeeds on both. -/
theorem endpoints_append_targets (d : Deps) (ps : podSource) (p1 p2 : List Pod) :
    (∀ out1 out2, Endpoints d (ps.withPods p1) = .ok out1 →
        Endpoints d (ps.withPods p2) = .ok out2 →
        ∃ out, Endpoints d (ps.withPods (p1 ++ p2)) = .ok out ∧
          ∀ n t, targetsFor out n t = targetsFor out1 n t ++ targetsFor out2 n t) ∧
      ∀ out, Endpoints d (ps.withPods (p1 ++ p2)) = .ok out →
        (∃ out1, Endpoints d (ps.withPods p1) = .ok out1) ∧
          ∃ out2, Endpoints d (ps.withPods p2) = .ok out2 := by
  constructor
  · intro out1 out2 h1 h2
    obtain ⟨e1, hc1, rfl⟩ := Endpoints_withPods_ok d ps p1 out1 h1
    obtain ⟨e2, hc2, rfl⟩ := Endpoints_withPods_ok d ps p2 out2 h2
    refine ⟨_, Endpoints_withPods_of_collect d ps (p1 ++ p2) (e1 ++ e2)
      (collect_append_ok _ p1 p2 e1 e2 hc1 hc2), ?_⟩
    intro n t
    simp only [targetsFor_replay, List.filter_append, List.map_append]
  · intro out h
    obtain ⟨es, hc, _⟩ := Endpoints_withPods_ok d ps (p1 ++ p2) out h
    obtain ⟨⟨e1, hc1⟩, ⟨e2, hc2⟩⟩ := collect_ok_of_append _ p1 p2 es hc
    exact ⟨⟨_, Endpoints_withPods_of_collect d ps p1 e1 hc1⟩,
      ⟨_, Endpoints_withPods_of_collect d ps p2 e2 hc2⟩⟩

/-- Witness of C15: two pods behind the same internal hostname, each alone and both
together. -/
theorem endpoints_append_targets_witness :
    Endpoints specDeps (edgeSource.withPods [dbPod]) =
        .ok [⟨"db.example.com", "A", ["10.0.0.5"]⟩] ∧
      Endpoints specDeps (edgeSource.withPods [dbPodAgain]) =
        .ok [⟨"db.example.com", "A", ["10.0.0.5"]⟩] ∧
      ∃ out, Endpoints specDeps (edgeSource.withPods ([dbPod] ++ [dbPodAgain])) = .ok out ∧
        ∀ n t, targetsFor out n t =
          targetsFor [⟨"db.example.com", "A", ["10.0.0.5"]⟩] n t ++
            targetsFor [⟨"db.example.com", "A", ["10.0.0.5"]⟩] n t :=
  ⟨by decide, by decide,
    (endpoints_append_targets specDeps edgeSource [dbPod] [dbPodAgain]).1 _ _ (by decide)
      (by decide)⟩

/-- C16: when `Endpoints` succeeds on a pod list, it succeeds on every permutation of
the list, with the same set of (DNS name, record type) keys and, for every key, a target
list that is a permutation of the original one. -/
theorem endpoints_perm_pods (d : Deps) (ps : podSource) (pods pods' : List Pod)
    (out : List Endpoint) (hp : pods.Perm pods')
    (h : Endpoints d (ps.withPods pods) = .ok out) :
    ∃ out', Endpoints d (ps.withPods pods') = .ok out' ∧
      (∀ k, k ∈ out.map Endpoint.key ↔ k ∈ out'.map Endpoint.key) ∧
      ∀ n t, (targetsFor out n t).Perm (targetsFor out' n t) := by
  obtain ⟨es, hc, rfl⟩ := Endpoints_withPods_ok d ps pods out h
  obtain ⟨hall, hes⟩ := collect_ok_flatMap _ pods es hc
  have hc' : collect (podEmissions d ps) pods' =
      .ok (pods'.flatMap fun x => okEmissions (podEmissions d ps x)) :=
    collect_of_ok _ _ pods' fun x hx => hall x (hp.mem_iff.mpr hx)
  have hperm : es.Perm (pods'.flatMap fun x => okEmissions (podEmissions d ps x)) := by
    rw [hes]
    exact List.Perm.flatMap_right _ hp
  refine ⟨_, Endpoints_withPods_of_collect d ps pods' _ hc', ?_, ?_⟩
  · intro k
    rw [mem_key_replay, mem_key_replay]
    exact (hperm.map Emission.key).mem_iff
  · intro n t
    rw [targetsFor_replay, targetsFor_replay]
    exact (hperm.filter _).map _

/-- Witness of C16: the pod of the dual-stack node and a pod of an internal hostname, in
both orders. -/
theorem endpoints_perm_pods_witness :
    [svcPod, dbPod].Perm [dbPod, svcPod] ∧
      ∃ out', Endpoints specDeps (edgeSource.withPods [dbPod, svcPod]) = .ok out' ∧
        (∀ k, k ∈ ([⟨"svc.example.com", "A", ["203.0.113.5"]⟩,
              ⟨"svc.example.com", "AAAA", ["2001:db8::5"]⟩,
              ⟨"db.example.com", "A", ["10.0.0.5"]⟩] : List Endpoint).map Endpoint.key ↔
            k ∈ out'.map Endpoint.key) ∧
        ∀ n t, (targetsFor ([⟨"svc.example.com", "A", ["203.0.113.5"]⟩,
            ⟨"svc.example.com", "AAAA", ["2001:db8::5"]⟩,
            ⟨"db.example.com", "A", ["10.0.0.5"]⟩] : List Endpoint) n t).Perm
          (targetsFor out' n t) :=
  ⟨List.Perm.swap _ _ _,
    endpoints_perm_pods specDeps edgeSource [svcPod, dbPod] [dbPod, svcPod] _
      (List.Perm.swap _ _ _) (by decide)⟩

/-! ## Node addresses of another kind -/

theorem addNodeAddress_of_other_kind (d : Deps) (domain : String) (m : EndpointMap)
    (a : NodeAddress) (he : a.type ≠ NodeExternalIP) (hi : a.type ≠ NodeInternalIP) :
    addNodeAddress d domain m a = m := by
  simp [addNodeAddress, he, hi]

theorem nodeEmissions_withoutOtherKinds (d : Deps) (domain : String) (node : Node) :
    nodeEmissions d domain node.withoutOtherKinds.Addresses =
      nodeEmissions d domain node.Addresses := by
  simp only [nodeEmissions, Node.withoutOtherKinds, List.filter_filter]
  congr 1
  apply List.filter_congr
  intro a _
  by_cases h1 : a.type = NodeExternalIP
  · simp [eligible, h1]
  · by_cases h2 : a.type = NodeInternalIP
    · simp [eligible, h2]
    · simp [eligible, h1, h2]

theorem domainEmissions_withoutOtherKinds (d : Deps) (ps : podSource) (pod : Pod) :
    domainEmissions d ps.withoutOtherKinds pod = domainEmissions d ps pod := by
  funext domain
  simp only [domainEmissions, podSource.withoutOtherKinds]
  cases ps.nodeInformer pod.NodeName with
  | none => rfl
  | some node =>
    show Except.ok _ = Except.ok _
    rw [nodeEmissions_withoutOtherKinds]

theorem podEmissions_withoutOtherKinds (d : Deps) (ps : podSource) :
    podEmissions d ps.withoutOtherKinds = podEmissions d ps := by
  funext pod
  have hc : ps.withoutOtherKinds.compatibility = ps.compatibility := rfl
  simp only [podEmissions, hostnameEmissions, domainEmissions_withoutOtherKinds, hc]

/-- C17: a node address whose kind is neither ExternalIP nor InternalIP is never emitted
by hostname or kops-hostname resolution, whatever its address string and its
classification: the body of the address loop leaves the map as it is for such an
address, and `Endpoints` returns the same when every node is stripped of such
addresses. -/
theorem endpoints_ignore_other_address_kinds (d : Deps) (ps : podSource) :
    (∀ domain m a, a.type ≠ NodeExternalIP → a.type ≠ NodeInternalIP →
        addNodeAddress d domain m a = m) ∧
      Endpoints d ps = Endpoints d ps.withoutOtherKinds := by
  refine ⟨fun domain m a he hi => addNodeAddress_of_other_kind d domain m a he hi, ?_⟩
  have hl : ps.withoutOtherKinds.podInformer ps.withoutOtherKinds.«namespace» =
      ps.podInformer ps.«namespace» := rfl
  unfold Endpoints
  rw [hl]
  cases ps.podInformer ps.«namespace» with
  | error e => rfl
  | ok pods =>
    simp only [buildEndpointMap_eq, podEmissions_withoutOtherKinds]

/-- Witness of C17: in kops mode, a node that advertises a host name, an internal DNS
name that is classified AAAA, an external DNS name and one external IP; only the
external IP is a target, under both annotations. -/
theorem endpoints_ignore_other_address_kinds_witness :
    ("InternalDNS" ≠ NodeExternalIP ∧ "InternalDNS" ≠ NodeInternalIP) ∧
      specDeps.suitableType "2001:db8::9" = RecordTypeAAAA ∧
      addNodeAddress specDeps "svc.example.com" twoKeyMap
        { type := "InternalDNS", Address := "2001:db8::9" } = twoKeyMap ∧
      Endpoints specDeps (namedSource.withPods [namedPod]) =
        Endpoints specDeps (namedSource.withPods [namedPod]).withoutOtherKinds ∧
      Endpoints specDeps (namedSource.withPods [namedPod]) =
        .ok [⟨"svc.example.com", "A", ["203.0.113.5"]⟩,
          ⟨"old.example.com", "A", ["203.0.113.5"]⟩] :=
  ⟨by decide, by decide,
    (endpoints_ignore_other_address_kinds specDeps (namedSource.withPods [namedPod])).1 _ _ _
      (by decide) (by decide),
    (endpoints_ignore_other_address_kinds specDeps (namedSource.withPods [namedPod])).2,
    by decide⟩

end PodSource
